import Mathlib

/-!
Verification development for the YouTube tool-adapter repository
(`lib/youtube/base-tool.ts`, `lib/youtube/transcript-tool.ts`,
`lib/youtube/discovery-tool.ts`, `lib/youtube/download-tool.ts`,
`lib/youtube/video-tool.ts` and the `app/(chat)/api/youtube/...` route
handlers).

The TypeScript sources are shallowly embedded: pure helpers become Lean
functions on `List Char` / `String`, the per-tool in-memory caches become
explicit association lists threaded through the functions, the single
external network call of each adapter becomes an `Except`-valued oracle
argument, and a thrown JS exception becomes the `Except.error` branch.
JS machine numbers are modelled by `Int` / `Nat` (and `Rat` where the
source manipulates fractional values).
-/

namespace YT

/-! ## JS string primitives

Embeddings of the JavaScript string operations used by the sources:
`\s` character class, `trim`, `toLowerCase` (ASCII range), `split` on a
single-character separator (keeping empty tokens, as JS does), `split`
with the regex `/\s+/`, `parseInt`, and digit conversion. -/

/-- The JS regex `\s` character class (ECMA-262 WhiteSpace + LineTerminator). -/
def isSpaceJS (c : Char) : Bool :=
  c = ' ' || c = '\t' || c = '\n' || c = '\x0b' || c = '\x0c' || c = '\r' ||
  c = '\u00a0' || c = '\u1680' || ('\u2000' ≤ c && c ≤ '\u200a') ||
  c = '\u2028' || c = '\u2029' || c = '\u202f' || c = '\u205f' ||
  c = '\u3000' || c = '\ufeff'

/-- JS `String.prototype.trim` on a char list. -/
def jsTrimL (cs : List Char) : List Char :=
  ((cs.dropWhile isSpaceJS).reverse.dropWhile isSpaceJS).reverse

/-- JS `String.prototype.trim`. -/
def jsTrim (s : String) : String := String.mk (jsTrimL s.data)

/-- JS `String.prototype.toLowerCase`, restricted to the ASCII range
(the sources only compare the result against ASCII keywords). -/
def jsToLower (s : String) : String := String.mk (s.data.map Char.toLower)

/-- JS `String.prototype.includes` for a single character. -/
def containsChar (c : Char) (s : String) : Bool := s.data.contains c

/-- JS `split` on a single-character separator, keeping empty tokens
(`"a||b".split("|") = ["a","","b"]`, `"".split("|") = [""]`). -/
def splitCharL (sep : Char) : List Char → List (List Char)
  | [] => [[]]
  | c :: rest =>
    if c = sep then [] :: splitCharL sep rest
    else
      match splitCharL sep rest with
      | w :: ws => (c :: w) :: ws
      | [] => [[c]]

/-- `splitCharL` never returns the empty list. -/
theorem splitCharL_ne_nil (sep : Char) (cs : List Char) : splitCharL sep cs ≠ [] := by
  cases cs with
  | nil => simp [splitCharL]
  | cons c rest =>
    simp only [splitCharL]
    split
    · simp
    · split <;> simp

/-- String-level `split` on a single character. -/
def splitCharS (sep : Char) (s : String) : List String :=
  (splitCharL sep s.data).map String.mk

/-- JS `Array.prototype.join(" ")` on char-list tokens. -/
def joinSpace : List (List Char) → List Char
  | [] => []
  | [w] => w
  | w :: ws => w ++ ' ' :: joinSpace ws

/-- Splitting on the space character and joining with a space is the
identity (used for the 100-word summary round trip). -/
theorem joinSpace_splitCharL (cs : List Char) : joinSpace (splitCharL ' ' cs) = cs := by
  induction cs with
  | nil => simp [splitCharL, joinSpace]
  | cons c rest ih =>
    simp only [splitCharL]
    by_cases hc : c = ' '
    · subst hc
      simp only [if_pos rfl, joinSpace]
      cases h : splitCharL ' ' rest with
      | nil => exact absurd h (splitCharL_ne_nil _ _)
      | cons w ws => rw [h] at ih; simp [joinSpace, ← ih]
    · rw [if_neg hc]
      cases h : splitCharL ' ' rest with
      | nil => exact absurd h (splitCharL_ne_nil _ _)
      | cons w ws =>
        rw [h] at ih
        cases ws with
        | nil => simpa [joinSpace] using congrArg (c :: ·) ih
        | cons w2 ws2 => simpa [joinSpace] using congrArg (c :: ·) ih

/-- Auxiliary step for `splitWsJS`: drop the empty tokens a run of several
whitespace characters produces, keeping the final token even when empty. -/
def dropInnerEmpty : List (List Char) → List (List Char)
  | [] => []
  | [w] => [w]
  | w :: ws => if w = [] then dropInnerEmpty ws else w :: dropInnerEmpty ws

/-- Split on every single whitespace character (empty tokens kept). -/
def splitWsRaw : List Char → List (List Char)
  | [] => [[]]
  | c :: rest =>
    if isSpaceJS c then [] :: splitWsRaw rest
    else
      match splitWsRaw rest with
      | w :: ws => (c :: w) :: ws
      | [] => [[c]]

/-- JS `split(/\s+/)`: maximal whitespace runs separate the tokens; a
leading run yields one leading empty token and a trailing run one trailing
empty token (`" a".split(/\s+/) = ["","a"]`, `"a ".split(/\s+/) = ["a",""]`).
Since interior empty tokens can only come from several whitespace
characters in a row, this equals the single-character split with the
interior empties removed. -/
def splitWsJS (cs : List Char) : List (List Char) :=
  match splitWsRaw cs with
  | [] => [[]]
  | w :: ws => w :: dropInnerEmpty ws

/-- Value of a list of ASCII decimal digits. -/
def digitsToNat (ds : List Char) : Nat :=
  ds.foldl (fun n c => 10 * n + (c.toNat - '0'.toNat)) 0

/-- Value of a list of hex digits. -/
def hexDigitsToNat (ds : List Char) : Nat :=
  ds.foldl (fun n c =>
    16 * n +
      (if c.isDigit then c.toNat - '0'.toNat
       else if 'a' ≤ c && c ≤ 'f' then c.toNat - 'a'.toNat + 10
       else c.toNat - 'A'.toNat + 10)) 0

/-- Is the character a hex digit. -/
def isHexDigit (c : Char) : Bool :=
  c.isDigit || ('a' ≤ c && c ≤ 'f') || ('A' ≤ c && c ≤ 'F')

/-- JS `parseInt(s)` (radix unspecified): skip leading whitespace, optional
sign, a `0x`/`0X` prefix selects base 16, otherwise base 10; the longest
valid digit run is read and trailing garbage ignored; `none` models `NaN`.
(For very large inputs JS returns a rounded double; the exact integer is
used here — the difference never matters below.) -/
def jsParseInt (s : String) : Option Int :=
  let cs := s.data.dropWhile isSpaceJS
  let (sign, cs) : Int × List Char :=
    match cs with
    | '-' :: rest => (-1, rest)
    | '+' :: rest => (1, rest)
    | rest => (1, rest)
  match cs with
  | '0' :: 'x' :: rest =>
    let ds := rest.takeWhile isHexDigit
    if ds = [] then none else some (sign * hexDigitsToNat ds)
  | '0' :: 'X' :: rest =>
    let ds := rest.takeWhile isHexDigit
    if ds = [] then none else some (sign * hexDigitsToNat ds)
  | cs =>
    let ds := cs.takeWhile Char.isDigit
    if ds = [] then none else some (sign * digitsToNat ds)

/-! ## Identifier extractor (`lib/youtube/base-tool.ts`, `extractVideoId`)

The source matches the unanchored regex

  `(?:youtube\\.com\\/(?:[^\\/\\n\\s]+\\/\\S+\\/|(?:v|e(?:mbed)?)\\/|watch\\?(?:\\S*&)?v=|shorts\\/)|youtu\\.be\\/)([a-zA-Z0-9_-]{11})`

and returns capture group 1; otherwise it tests `/^[a-zA-Z0-9_-]{11}$/`
and returns the input; otherwise it throws.  The matcher below embeds the
regex: at each start position the alternatives are tried in the order of
the pattern, greedy quantifiers enumerate their candidate remainders
longest-first, and the first candidate followed by eleven identifier
characters wins — exactly the JS backtracking order. -/

/-- The `[a-zA-Z0-9_-]` identifier alphabet. -/
def isIdChar (c : Char) : Bool :=
  c.isAlpha || c.isDigit || c = '-' || c = '_'

/-- Consume a literal prefix, returning the remainder. -/
def dropLit : List Char → List Char → Option (List Char)
  | [], cs => some cs
  | _ :: _, [] => none
  | l :: ls, c :: cs => if c = l then dropLit ls cs else none

/-- Candidate remainders after a greedy `p+`, longest consumption first. -/
def plusSplits (p : Char → Bool) (cs : List Char) : List (List Char) :=
  (List.range (cs.takeWhile p).length).map
    (fun k => cs.drop ((cs.takeWhile p).length - k))

/-- Candidate remainders after a greedy `p*`, longest consumption first. -/
def starSplits (p : Char → Bool) (cs : List Char) : List (List Char) :=
  (List.range ((cs.takeWhile p).length + 1)).map
    (fun k => cs.drop ((cs.takeWhile p).length - k))

/-- Concatenation of a list of lists. -/
def concatAll : List (List α) → List α
  | [] => []
  | l :: ls => l ++ concatAll ls

/-- `[^\/\n\s]`: not a slash and not whitespace (newline is whitespace). -/
def notSlashWs (c : Char) : Bool := !(c = '/') && !(isSpaceJS c)

/-- `\S`: not whitespace. -/
def notWs (c : Char) : Bool := !(isSpaceJS c)

/-- Consume one literal slash. -/
def slashTail : List Char → Option (List Char)
  | '/' :: r => some r
  | _ => none

/-- Consume one literal ampersand. -/
def ampTail : List Char → Option (List Char)
  | '&' :: r => some r
  | _ => none

/-- Candidates of the branch `[^\/\n\s]+\/\S+\/` after `youtube.com/`. -/
def candA (r0 : List Char) : List (List Char) :=
  concatAll ((plusSplits notSlashWs r0).map (fun r1 =>
    match slashTail r1 with
    | some r1x => (plusSplits notWs r1x).filterMap slashTail
    | none => []))

/-- Candidates of the branch `(?:v|e(?:mbed)?)\/`: `v/`, `embed/`, `e/`. -/
def candB (r0 : List Char) : List (List Char) :=
  [dropLit ("v/".data) r0, dropLit ("embed/".data) r0, dropLit ("e/".data) r0].filterMap id

/-- Candidates of the branch `watch\?(?:\S*&)?v=`: the optional group is
tried first (greedy `?`), with `\S*` longest-first, then the bare `v=`. -/
def candC (r0 : List Char) : List (List Char) :=
  match dropLit ("watch?".data) r0 with
  | none => []
  | some r1 =>
    ((starSplits notWs r1).filterMap (fun t =>
      (ampTail t).bind (dropLit ("v=".data))))
    ++ (match dropLit ("v=".data) r1 with
        | some x => [x]
        | none => [])

/-- Candidates of the branch `shorts\/`. -/
def candD (r0 : List Char) : List (List Char) :=
  match dropLit ("shorts/".data) r0 with
  | some r => [r]
  | none => []

/-- All remainders after the URL prefix part, in JS preference order. -/
def urlCandidates (cs : List Char) : List (List Char) :=
  (match dropLit ("youtube.com/".data) cs with
   | some r0 => candA r0 ++ candB r0 ++ candC r0 ++ candD r0
   | none => [])
  ++ (match dropLit ("youtu.be/".data) cs with
      | some r => [r]
      | none => [])

/-- `[a-zA-Z0-9_-]{11}`: the next eleven characters, if they are all
identifier characters. -/
def takeId11 (r : List Char) : Option (List Char) :=
  if 11 ≤ r.length && (r.take 11).all isIdChar then some (r.take 11) else none

/-- First `some` produced by `f` over a list. -/
def pickFirst (f : α → Option β) : List α → Option β
  | [] => none
  | x :: xs =>
    match f x with
    | some b => some b
    | none => pickFirst f xs

/-- Try a full regex match starting exactly at the head of `cs`. -/
def matchUrlAt (cs : List Char) : Option (List Char) :=
  pickFirst takeId11 (urlCandidates cs)

/-- Leftmost match of the URL regex: try each start position left to right. -/
def firstUrlCapture : List Char → Option (List Char)
  | [] => none
  | c :: rest =>
    match matchUrlAt (c :: rest) with
    | some id => some id
    | none => firstUrlCapture rest

/-- `/^[a-zA-Z0-9_-]{11}$/.test` -/
def bareId11 (cs : List Char) : Bool :=
  cs.length == 11 && cs.all isIdChar

/-- The error thrown when no pattern matches (`InvalidReference` in the
spec taxonomy); the message carries the offending input as in the source. -/
inductive ExtractErr where
  | invalidReference (input : String)
deriving DecidableEq

/-- The message of the thrown `Error`. -/
def ExtractErr.message : ExtractErr → String
  | .invalidReference input => "Could not extract valid YouTube video ID from: " ++ input

/-- `extractVideoId` of `lib/youtube/base-tool.ts`: URL-pattern capture,
else the bare-token test, else a thrown error (`Except.error`). -/
def extractVideoId (s : String) : Except ExtractErr String :=
  match firstUrlCapture s.data with
  | some id => .ok (String.mk id)
  | none =>
    if bareId11 s.data then .ok s
    else .error (.invalidReference s)

/-! ### Any URL-pattern match needs at least 20 characters

The shortest matching form is `youtu.be/` (9 characters) followed by the
11-character identifier, so an 11-character input can never match the URL
regex; this is the key fact behind the bare-identifier round trip. -/

/-- `takeWhile` never lengthens a list. -/
theorem len_takeWhile_le (p : Char → Bool) (l : List Char) :
    (l.takeWhile p).length ≤ l.length := by
  induction l with
  | nil => simp [List.takeWhile]
  | cons c rest ih =>
    simp only [List.takeWhile]
    split
    · simpa using ih
    · simp

/-- A consumed literal shortens the remainder by its length. -/
theorem dropLit_length {lit cs r : List Char} (h : dropLit lit cs = some r) :
    r.length + lit.length = cs.length := by
  induction lit generalizing cs with
  | nil =>
    simp only [dropLit, Option.some_inj] at h
    simp [← h]
  | cons l ls ih =>
    cases cs with
    | nil => simp [dropLit] at h
    | cons c cs2 =>
      simp only [dropLit] at h
      split at h
      · have := ih h
        simp only [List.length_cons]
        omega
      · exact absurd h (by simp)

/-- Members of `plusSplits` are strictly shorter than the input. -/
theorem plusSplits_length {p : Char → Bool} {cs r : List Char}
    (h : r ∈ plusSplits p cs) : r.length < cs.length := by
  simp only [plusSplits, List.mem_map, List.mem_range] at h
  obtain ⟨k, hk, rfl⟩ := h
  have hm : (cs.takeWhile p).length ≤ cs.length := len_takeWhile_le p cs
  rw [List.length_drop]
  omega

/-- Members of `starSplits` are no longer than the input. -/
theorem starSplits_length {p : Char → Bool} {cs r : List Char}
    (h : r ∈ starSplits p cs) : r.length ≤ cs.length := by
  simp only [starSplits, List.mem_map, List.mem_range] at h
  obtain ⟨k, hk, rfl⟩ := h
  rw [List.length_drop]
  omega

/-- Membership in a concatenation comes from membership in a member. -/
theorem mem_concatAll {x : α} {ls : List (List α)} (h : x ∈ concatAll ls) :
    ∃ l ∈ ls, x ∈ l := by
  induction ls with
  | nil => simp [concatAll] at h
  | cons l ls2 ih =>
    simp only [concatAll, List.mem_append] at h
    rcases h with h | h
    · exact ⟨l, by simp, h⟩
    · obtain ⟨l2, hl2, hx⟩ := ih h
      exact ⟨l2, by simp [hl2], hx⟩

/-- `slashTail` consumes exactly one character. -/
theorem slashTail_length {cs r : List Char} (h : slashTail cs = some r) :
    r.length + 1 = cs.length := by
  rw [slashTail.eq_def] at h
  split at h
  · cases h; simp
  · exact absurd h (by simp)

/-- `ampTail` consumes exactly one character. -/
theorem ampTail_length {cs r : List Char} (h : ampTail cs = some r) :
    r.length + 1 = cs.length := by
  rw [ampTail.eq_def] at h
  split at h
  · cases h; simp
  · exact absurd h (by simp)

/-- Every `candA` candidate is no longer than its input. -/
theorem candA_length {r0 r : List Char} (h : r ∈ candA r0) : r.length ≤ r0.length := by
  obtain ⟨l, hl, hr⟩ := mem_concatAll h
  rw [List.mem_map] at hl
  obtain ⟨r1, hr1, rfl⟩ := hl
  have h1 : r1.length < r0.length := plusSplits_length hr1
  cases hst : slashTail r1 with
  | none => rw [hst] at hr; simp at hr
  | some r1x =>
    rw [hst] at hr
    have h1x := slashTail_length hst
    rw [List.mem_filterMap] at hr
    obtain ⟨r2, hr2, hst2⟩ := hr
    have h2 : r2.length < r1x.length := plusSplits_length hr2
    have h2x := slashTail_length hst2
    omega

/-- Every `candB` candidate is no longer than its input. -/
theorem candB_length {r0 r : List Char} (h : r ∈ candB r0) : r.length ≤ r0.length := by
  unfold candB at h
  rw [List.mem_filterMap] at h
  obtain ⟨o, ho, hid⟩ := h
  simp only [id] at hid
  subst hid
  simp only [List.mem_cons, List.not_mem_nil, or_false] at ho
  rcases ho with ho | ho | ho <;>
    · have := dropLit_length ho.symm
      omega

/-- Every `candC` candidate is no longer than its input. -/
theorem candC_length {r0 r : List Char} (h : r ∈ candC r0) : r.length ≤ r0.length := by
  unfold candC at h
  split at h
  · simp at h
  · next r1 hw =>
    have hr1 := dropLit_length hw
    rw [List.mem_append] at h
    rcases h with h | h
    · rw [List.mem_filterMap] at h
      obtain ⟨t, ht, htb⟩ := h
      have htl : t.length ≤ r1.length := starSplits_length ht
      cases ha : ampTail t with
      | none => rw [ha] at htb; simp at htb
      | some t2 =>
        rw [ha] at htb
        simp only [Option.bind_some] at htb
        have h2 := ampTail_length ha
        have h3 := dropLit_length htb
        simp only [String.data] at h3
        omega
    · split at h
      · next x hx =>
        simp only [List.mem_singleton] at h
        subst h
        have := dropLit_length hx
        omega
      · simp at h

/-- Every `candD` candidate is no longer than its input. -/
theorem candD_length {r0 r : List Char} (h : r ∈ candD r0) : r.length ≤ r0.length := by
  unfold candD at h
  split at h
  · next hx =>
    simp only [List.mem_singleton] at h
    subst h
    have := dropLit_length hx
    omega
  · simp at h

/-- Every candidate remainder follows at least the 9 characters of
`youtu.be/` (or the 12 of `youtube.com/`). -/
theorem urlCandidates_length {cs r : List Char} (h : r ∈ urlCandidates cs) :
    r.length + 9 ≤ cs.length := by
  unfold urlCandidates at h
  rw [List.mem_append] at h
  rcases h with h | h
  · split at h
    · next r0 h12 =>
      have hr0 := dropLit_length h12
      have hlit : ("youtube.com/".data).length = 12 := by decide
      rw [hlit] at hr0
      simp only [List.mem_append] at h
      rcases h with ((h | h) | h) | h
      · have := candA_length h; omega
      · have := candB_length h; omega
      · have := candC_length h; omega
      · have := candD_length h; omega
    · simp at h
  · split at h
    · next r9 h9 =>
      have h9len := dropLit_length h9
      have hlit : ("youtu.be/".data).length = 9 := by decide
      rw [hlit] at h9len
      simp only [List.mem_singleton] at h
      subst h
      omega
    · simp at h

/-- First-match search returns `none` when `f` is `none` on every element. -/
theorem pickFirst_none {f : α → Option β} {l : List α}
    (h : ∀ x ∈ l, f x = none) : pickFirst f l = none := by
  induction l with
  | nil => rfl
  | cons x xs ih =>
    simp only [pickFirst]
    rw [h x (by simp)]
    exact ih (fun y hy => h y (by simp [hy]))

/-- No match can start at a position with fewer than 20 characters left. -/
theorem matchUrlAt_none_short {cs : List Char} (h : cs.length < 20) :
    matchUrlAt cs = none := by
  apply pickFirst_none
  intro r hr
  have hlen := urlCandidates_length hr
  have h11 : ¬ (11 ≤ r.length) := by omega
  simp [takeId11, h11]

/-- A string shorter than 20 characters never matches the URL regex. -/
theorem firstUrlCapture_none_short {cs : List Char} (h : cs.length < 20) :
    firstUrlCapture cs = none := by
  induction cs with
  | nil => rfl
  | cons c rest ih =>
    simp only [firstUrlCapture]
    rw [matchUrlAt_none_short h]
    exact ih (by simp at h ⊢; omega)

/-- C3: an 11-character string over the identifier alphabet is returned
unchanged by `extractVideoId`: it cannot match the URL regex (every match
needs at least 20 characters) and it passes the bare-token test. -/
theorem extractVideoId_bare_roundtrip (s : String)
    (hlen : s.data.length = 11) (hchars : s.data.all isIdChar = true) :
    extractVideoId s = .ok s := by
  unfold extractVideoId
  rw [firstUrlCapture_none_short (by omega)]
  simp [bareId11, hlen, hchars]

/-- Witness for C3 at the canonical 11-character identifier. -/
theorem extractVideoId_bare_roundtrip_witness :
    ("dQw4w9WgXcQ" : String).data.length = 11 ∧
    ("dQw4w9WgXcQ" : String).data.all isIdChar = true ∧
    extractVideoId "dQw4w9WgXcQ" = .ok "dQw4w9WgXcQ" :=
  ⟨by decide, by decide, extractVideoId_bare_roundtrip "dQw4w9WgXcQ" (by decide) (by decide)⟩

/-- C4: when the URL regex does not match anywhere and the input is not a
bare 11-character identifier token, extraction fails with the
`InvalidReference` error (the thrown `Error` of the source) and never
returns an identifier. -/
theorem extractVideoId_invalid_reference (s : String)
    (hurl : firstUrlCapture s.data = none)
    (hbare : ¬(s.data.length = 11 ∧ s.data.all isIdChar = true)) :
    extractVideoId s = .error (.invalidReference s) := by
  have hb : bareId11 s.data = false := by
    unfold bareId11
    rcases not_and_or.mp hbare with h1 | h1
    · have hbeq : (s.data.length == 11) = false := by
        simp only [beq_eq_false_iff_ne, ne_eq]
        exact h1
      rw [hbeq, Bool.false_and]
    · have hall : s.data.all isIdChar = false := by
        cases hcase : s.data.all isIdChar
        · rfl
        · exact absurd hcase h1
      rw [hall, Bool.and_false]
  unfold extractVideoId
  rw [hurl, hb]
  simp

/-- Witness for C4 at the non-matching input string. -/
theorem extractVideoId_invalid_reference_witness :
    firstUrlCapture ("hello" : String).data = none ∧
    extractVideoId "hello" = .error (.invalidReference "hello") :=
  ⟨by decide, extractVideoId_invalid_reference "hello" (by decide) (by decide)⟩

/-! ## Formatting helpers (`lib/youtube/base-tool.ts`)

`formatNumber`, `formatDuration`, `formatDate`, `formatFilesize`.  JS
`toFixed` is modelled as exact rational rounding (ties away from zero, as
ECMA-262 specifies for the printed digit string); on rare IEEE-754
boundary values the double arithmetic of the source could round the last
digit differently, which no claim depends on. -/

/-- `padStart(2, "0")` for a decimal number. -/
def pad2 (n : Nat) : String :=
  if n < 10 then "0" ++ Nat.repr n else Nat.repr n

/-- `toFixed(1)` for a nonnegative rational. -/
def toFixed1 (q : ℚ) : String :=
  let t := (q * 10 + 1 / 2).floor.toNat
  Nat.repr (t / 10) ++ "." ++ Nat.repr (t % 10)

/-- `toFixed(2)` for a nonnegative rational. -/
def toFixed2 (q : ℚ) : String :=
  let c := (q * 100 + 1 / 2).floor.toNat
  Nat.repr (c / 100) ++ "." ++ pad2 (c % 100)

/-- `formatNumber` of `base-tool.ts`. -/
def formatNumber (num : Nat) : String :=
  if num ≥ 1000000000 then toFixed1 ((num : ℚ) / 1000000000) ++ "B"
  else if num ≥ 1000000 then toFixed1 ((num : ℚ) / 1000000) ++ "M"
  else if num ≥ 1000 then toFixed1 ((num : ℚ) / 1000) ++ "K"
  else Nat.repr num

/-- `formatDuration` of `base-tool.ts` (`undefined`/`null` is `none`;
durations are integral seconds, so the source's `Math.floor` is the
identity on the three components). -/
def formatDuration (seconds : Option Nat) : String :=
  match seconds with
  | none => "Unknown"
  | some s =>
    let hours := s / 3600
    let minutes := (s % 3600) / 60
    let remainingSeconds := s % 60
    if hours > 0 then
      Nat.repr hours ++ ":" ++ pad2 minutes ++ ":" ++ pad2 remainingSeconds
    else
      Nat.repr minutes ++ ":" ++ pad2 remainingSeconds

/-- `formatDate` of `base-tool.ts`: an 8-character `YYYYMMDD` string is
sliced to `YYYY-MM-DD`; anything falsy or of another length is `Unknown`. -/
def formatDate (dateStr : Option String) : String :=
  match dateStr with
  | none => "Unknown"
  | some ds =>
    if ds = "" then "Unknown"
    else if ds.data.length ≠ 8 then "Unknown"
    else
      String.mk (ds.data.take 4) ++ "-" ++
      String.mk ((ds.data.drop 4).take 2) ++ "-" ++
      String.mk ((ds.data.drop 6).take 2)

/-- The `while size >= 1024` unit loop of `formatFilesize`. -/
def fsLoop (size : ℚ) : List String → String
  | [] => ""
  | [u] => toFixed2 size ++ " " ++ u
  | u :: us =>
    if size ≥ 1024 then fsLoop (size / 1024) us
    else toFixed2 size ++ " " ++ u

/-- `formatFilesize` of `base-tool.ts`. -/
def formatFilesize (sizeBytes : Option Nat) : String :=
  match sizeBytes with
  | none => "Unknown"
  | some n => fsLoop (n : ℚ) ["B", "KB", "MB", "GB", "TB"]

/-! ## Video route duration parsing (`app/(chat)/api/youtube/video/route.ts`)

`parseDuration` matches the unanchored regex
`PT(?:(\d+)H)?(?:(\d+)M)?(?:(\d+)S)?` and sums the groups.  The regex can
only match starting at a literal `PT`, and at the first `PT` occurrence it
always succeeds (all three groups are optional), so the leftmost match
anchors at the first `PT`; each group consumes a maximal digit run only
when the marker letter follows it directly. -/

/-- Remainder after the first `PT` occurrence. -/
def findPT : List Char → Option (List Char)
  | 'P' :: 'T' :: rest => some rest
  | _ :: rest => findPT rest
  | [] => none

/-- One optional group `(?:(\d+)X)?`: a nonempty digit run directly
followed by the marker, else match empty and consume nothing. -/
def optGroup (marker : Char) (cs : List Char) : Option Nat × List Char :=
  let ds := cs.takeWhile Char.isDigit
  match cs.dropWhile Char.isDigit with
  | m :: rest2 =>
    if ds ≠ [] ∧ m = marker then (some (digitsToNat ds), rest2) else (none, cs)
  | [] => (none, cs)

/-- `parseDuration` of the video route: `0` when the regex does not match,
else hours, minutes and seconds groups (absent group = `parseInt("0")`). -/
def parseDuration (s : String) : Nat :=
  match findPT s.data with
  | none => 0
  | some cs =>
    let g1 := optGroup 'H' cs
    let g2 := optGroup 'M' g1.2
    let g3 := optGroup 'S' g2.2
    g1.1.getD 0 * 3600 + g2.1.getD 0 * 60 + g3.1.getD 0

/-- The three regex groups of `parseDuration` (all `none` both when the
regex does not match at all and when it matches with every group empty). -/
def durationGroups (s : String) : Option Nat × Option Nat × Option Nat :=
  match findPT s.data with
  | none => (none, none, none)
  | some cs =>
    let g1 := optGroup 'H' cs
    let g2 := optGroup 'M' g1.2
    let g3 := optGroup 'S' g2.2
    (g1.1, g2.1, g3.1)

/-- C6: duration normalization — `PT1H2M3S` is 3723 seconds, `PT45S` is 45
seconds, and any input on which no group matches yields 0. -/
theorem parseDuration_spec :
    parseDuration "PT1H2M3S" = 3723 ∧
    parseDuration "PT45S" = 45 ∧
    ∀ s : String, durationGroups s = (none, none, none) → parseDuration s = 0 := by
  refine ⟨by decide, by decide, ?_⟩
  intro s h
  unfold durationGroups at h
  unfold parseDuration
  cases hf : findPT s.data with
  | none => rfl
  | some cs =>
    rw [hf] at h
    simp only [Prod.mk.injEq] at h
    simp only [h.1, h.2.1, h.2.2, Option.getD_none]

/-- Witness for the conditional part of C6 at an input with no groups. -/
theorem parseDuration_spec_witness :
    durationGroups "hello" = (none, none, none) ∧ parseDuration "hello" = 0 :=
  ⟨by decide, parseDuration_spec.2.2 "hello" (by decide)⟩

/-! ## Discovery tool input parsing (`lib/youtube/discovery-tool.ts`, `parseInput`)

`input.split("|", 2)` gives the query and an optional parameter section;
the section is split on `,` when it contains a comma (otherwise on `|`,
which after the 2-limited split can no longer occur); each `key=value`
token is trimmed, lowercased and dispatched; anything unrecognized is
silently ignored. -/

/-- The `sort` enumeration of the search parameters. -/
inductive SortKind where
  | relevance | date | views | rating
deriving DecidableEq

/-- The `duration` enumeration of the search parameters. -/
inductive DurKind where
  | short | medium | long
deriving DecidableEq

/-- The parsed search parameters (`duration: null` is `none`). -/
structure SearchParams where
  count : Int
  sort : SortKind
  recent : Bool
  minViews : Int
  duration : Option DurKind
deriving DecidableEq

/-- The defaults of `parseInput`. -/
def defaultParams : SearchParams :=
  { count := 5, sort := .relevance, recent := false, minViews := 0, duration := none }

/-- Recognize a `sort` value. -/
def strToSort (v : String) : Option SortKind :=
  if v = "relevance" then some .relevance
  else if v = "date" then some .date
  else if v = "views" then some .views
  else if v = "rating" then some .rating
  else none

/-- Recognize a `duration` value. -/
def strToDur (v : String) : Option DurKind :=
  if v = "short" then some .short
  else if v = "medium" then some .medium
  else if v = "long" then some .long
  else none

/-- One iteration of the parameter loop of `parseInput` (the source binds
`trimmed = param.trim()` once; it is inlined here). -/
def applyParam (p : SearchParams) (param : String) : SearchParams :=
  if containsChar '=' (jsTrim param) then
    match ((splitCharS '=' (jsTrim param)).take 2).map (fun part => jsToLower (jsTrim part)) with
    | key :: value :: _ =>
      if key = "count" then
        match jsParseInt value with
        | some n => { p with count := min n 20 }
        | none => p
      else if key = "sort" then
        match strToSort value with
        | some sk => { p with sort := sk }
        | none => p
      else if key = "recent" then
        if value = "true" || value = "yes" || value = "1" then { p with recent := true }
        else p
      else if key = "min_views" then
        match jsParseInt value with
        | some n => { p with minViews := n }
        | none => p
      else if key = "duration" then
        match strToDur value with
        | some d => { p with duration := some d }
        | none => p
      else p
    | _ => p
  else p

/-- The parameter section is split on `,` when a comma is present,
otherwise on `|`. -/
def paramTokens (second : String) : List String :=
  if containsChar ',' second then splitCharS ',' second else splitCharS '|' second

/-- `parseInput` of the discovery tool (`input.split("|", 2)`; the empty
first case cannot occur, a JS split always has at least one element). -/
def parseInput (input : String) : String × SearchParams :=
  match (splitCharS '|' input).take 2 with
  | [] => ("", defaultParams)
  | [only] => (jsTrim only, defaultParams)
  | first :: second :: _ =>
    (jsTrim first, (paramTokens second).foldl applyParam defaultParams)

/-- The lowercased key of a `key=value` token, as `applyParam` computes it. -/
def tokenKey (param : String) : String :=
  (((splitCharS '=' (jsTrim param)).take 2).map (fun part => jsToLower (jsTrim part))).headD ""

/-- `applyParam` leaves the parameters unchanged on a token whose key is
not one of the five recognized keys. -/
theorem applyParam_unknown_key (p : SearchParams) (param : String)
    (h : tokenKey param ∉ (["count", "sort", "recent", "min_views", "duration"] : List String)) :
    applyParam p param = p := by
  unfold applyParam
  split
  · cases hm : ((splitCharS '=' (jsTrim param)).take 2).map (fun part => jsToLower (jsTrim part)) with
    | nil => rfl
    | cons key rest =>
      cases rest with
      | nil => rfl
      | cons value rest2 =>
        have hk : tokenKey param = key := by
          unfold tokenKey
          rw [hm]
          rfl
        rw [hk] at h
        simp only [List.mem_cons, List.not_mem_nil, or_false, not_or] at h
        obtain ⟨h1, h2, h3, h4, h5⟩ := h
        simp only [if_neg h1, if_neg h2, if_neg h3, if_neg h4, if_neg h5]
  · rfl

/-- The lowercased value of a `key=value` token, as `applyParam` computes it. -/
def tokenValue (param : String) : String :=
  match ((splitCharS '=' (jsTrim param)).take 2).map (fun part => jsToLower (jsTrim part)) with
  | _ :: v :: _ => v
  | _ => ""

/-- A recognized key paired with a value its branch of `applyParam`
rejects: a non-numeric `count` or `min_views`, a `sort` outside the four
keywords, a `recent` outside `true`/`yes`/`1`, a `duration` outside
`short`/`medium`/`long`. -/
@[reducible] def invalidValueFor (key value : String) : Prop :=
  (key = "count" ∧ jsParseInt value = none) ∨
  (key = "sort" ∧ strToSort value = none) ∨
  (key = "recent" ∧ value ≠ "true" ∧ value ≠ "yes" ∧ value ≠ "1") ∨
  (key = "min_views" ∧ jsParseInt value = none) ∨
  (key = "duration" ∧ strToDur value = none)

/-- `applyParam` leaves the parameters unchanged on a token with a
recognized key but an invalid value. -/
theorem applyParam_invalid_value (p : SearchParams) (param : String)
    (h : invalidValueFor (tokenKey param) (tokenValue param)) :
    applyParam p param = p := by
  unfold applyParam
  split
  · cases hm : ((splitCharS '=' (jsTrim param)).take 2).map (fun part => jsToLower (jsTrim part)) with
    | nil => rfl
    | cons key rest =>
      cases rest with
      | nil => rfl
      | cons value rest2 =>
        have hk : tokenKey param = key := by
          unfold tokenKey
          rw [hm]
          rfl
        have hv : tokenValue param = value := by
          unfold tokenValue
          rw [hm]
        rw [hk, hv] at h
        rcases h with ⟨hke, hval⟩ | ⟨hke, hval⟩ | ⟨hke, hv1, hv2, hv3⟩ | ⟨hke, hval⟩ | ⟨hke, hval⟩
        · subst hke
          simp [hval]
        · subst hke
          simp [hval]
        · subst hke
          simp [hv1, hv2, hv3]
        · subst hke
          simp [hval]
        · subst hke
          simp [hval]
  · rfl

/-- `applyParam` leaves the parameters unchanged on a token with no `=`. -/
theorem applyParam_no_eq (p : SearchParams) (param : String)
    (h : containsChar '=' (jsTrim param) = false) :
    applyParam p param = p := by
  unfold applyParam
  rw [h]
  simp

/-- `applyParam` never drives `count` above 20. -/
theorem applyParam_count_le (p : SearchParams) (param : String)
    (h : p.count ≤ 20) : (applyParam p param).count ≤ 20 := by
  unfold applyParam
  split
  · split
    · rename_i key value tail heq
      by_cases h1 : key = "count"
      · rw [if_pos h1]
        cases jsParseInt value with
        | none => exact h
        | some n => simp [min_le_right]
      · rw [if_neg h1]
        by_cases h2 : key = "sort"
        · rw [if_pos h2]
          cases strToSort value <;> simpa
        · rw [if_neg h2]
          by_cases h3 : key = "recent"
          · rw [if_pos h3]
            split <;> simpa
          · rw [if_neg h3]
            by_cases h4 : key = "min_views"
            · rw [if_pos h4]
              cases jsParseInt value <;> simpa
            · rw [if_neg h4]
              by_cases h5 : key = "duration"
              · rw [if_pos h5]
                cases strToDur value <;> simpa
              · rw [if_neg h5]
                exact h
    · exact h
  · exact h

/-- Folding the parameter loop keeps `count` at most 20. -/
theorem foldl_applyParam_count_le (toks : List String) (p : SearchParams)
    (h : p.count ≤ 20) : (toks.foldl applyParam p).count ≤ 20 := by
  induction toks generalizing p with
  | nil => exact h
  | cons t ts ih => exact ih _ (applyParam_count_le p t h)

/-- C7: search-parameter parsing — the worked example from the spec, the
universal 20-cap on `count`, the silent skipping of unrecognized
`key=value` tokens, and the silent skipping of recognized keys whose
value is invalid (defaults apply in both cases). -/
theorem parseInput_spec :
    parseInput "cats | count=10, sort=views, recent=true" =
      ("cats", { count := 10, sort := .views, recent := true,
                 minViews := 0, duration := none }) ∧
    (∀ input : String, (parseInput input).2.count ≤ 20) ∧
    (∀ p param, tokenKey param ∉ (["count", "sort", "recent", "min_views", "duration"] : List String) →
      applyParam p param = p) ∧
    (∀ p param, invalidValueFor (tokenKey param) (tokenValue param) →
      applyParam p param = p) := by
  refine ⟨by decide, ?_, fun p param h => applyParam_unknown_key p param h,
    fun p param h => applyParam_invalid_value p param h⟩
  intro input
  unfold parseInput
  split
  · simp [defaultParams]
  · simp [defaultParams]
  · exact foldl_applyParam_count_le _ _ (by decide)

/-- Witness for C7: the cap applied to an overlarge request, an ignored
unknown key, and three ignored invalid values (`count=abc`,
`sort=banana`, `duration=xl`). -/
theorem parseInput_spec_witness :
    (parseInput "cats | count=50").2.count ≤ 20 ∧
    (tokenKey " foo=bar " ∉ (["count", "sort", "recent", "min_views", "duration"] : List String) ∧
     applyParam defaultParams " foo=bar " = defaultParams) ∧
    (invalidValueFor (tokenKey "count=abc") (tokenValue "count=abc") ∧
     applyParam defaultParams "count=abc" = defaultParams) ∧
    (invalidValueFor (tokenKey "sort=banana") (tokenValue "sort=banana") ∧
     applyParam defaultParams "sort=banana" = defaultParams) ∧
    (invalidValueFor (tokenKey "duration=xl") (tokenValue "duration=xl") ∧
     applyParam defaultParams "duration=xl" = defaultParams) :=
  ⟨parseInput_spec.2.1 "cats | count=50",
   ⟨by decide, parseInput_spec.2.2.1 defaultParams " foo=bar " (by decide)⟩,
   ⟨by decide, parseInput_spec.2.2.2 defaultParams "count=abc" (by decide)⟩,
   ⟨by decide, parseInput_spec.2.2.2 defaultParams "sort=banana" (by decide)⟩,
   ⟨by decide, parseInput_spec.2.2.2 defaultParams "duration=xl" (by decide)⟩⟩

/-! ## Transcript tool (`lib/youtube/transcript-tool.ts`)

The cleaning pipeline of `processTranscript` applies three global regex
replacements in order: `/\s+/g` to a single space, `/\[.*?\]/g` removed
(lazy, and `.` does not cross line terminators), and `/\s([.,;!?])/g` to
`$1`.  Each is embedded as a single left-to-right pass matching the JS
regex scan. -/

/-- Collapse every maximal whitespace run to one space (`/\s+/g` → `" "`),
tracking whether the previous character was part of a run. -/
def collapseWsAux : Bool → List Char → List Char
  | _, [] => []
  | prevWs, c :: rest =>
    if isSpaceJS c then
      if prevWs then collapseWsAux true rest
      else ' ' :: collapseWsAux true rest
    else c :: collapseWsAux false rest

/-- `replace(/\s+/g, " ")`. -/
def collapseWs (cs : List Char) : List Char := collapseWsAux false cs

/-- The four characters the regex `.` does not match. -/
def isDotExcl (c : Char) : Bool :=
  c = '\n' || c = '\r' || c = '\u2028' || c = '\u2029'

/-- Scan for `replace(/\[.*?\]/g, "")`: outside a bracket attempt
(`none`) characters pass through; inside (`some acc`, the characters seen
since the opening bracket, reversed) a `]` closes and drops the leftmost
lazy match, while a line terminator or the end of input aborts every
bracket opened in `acc` at once (no `]` lies before the terminator for
any of them), emitting the consumed text literally. -/
def rbAux : Option (List Char) → List Char → List Char
  | none, [] => []
  | none, c :: rest =>
    if c = '[' then rbAux (some []) rest else c :: rbAux none rest
  | some acc, [] => '[' :: acc.reverse
  | some acc, c :: rest =>
    if c = ']' then rbAux none rest
    else if isDotExcl c then ('[' :: acc.reverse) ++ c :: rbAux none rest
    else rbAux (some (c :: acc)) rest

/-- `replace(/\[.*?\]/g, "")`. -/
def removeBrackets (cs : List Char) : List Char := rbAux none cs

/-- One pass of `replace(/\s([punct])/g, "$1")` for a punctuation class:
a whitespace character directly followed by a class member is dropped and
the scan continues after the match. -/
def punctFixAux (puncts : List Char) : List Char → List Char
  | c1 :: c2 :: rest =>
    if isSpaceJS c1 && puncts.contains c2 then c2 :: punctFixAux puncts rest
    else c1 :: punctFixAux puncts (c2 :: rest)
  | l => l

/-- The full cleaning chain of `processTranscript` (source lines 78-80). -/
def cleanTranscriptText (cs : List Char) : List Char :=
  punctFixAux ['.', ',', ';', '!', '?'] (removeBrackets (collapseWs cs))

/-- A raw transcript segment (`TranscriptSegment`). -/
structure Segment where
  text : String
  start : Rat
  duration : Rat
deriving DecidableEq

/-- `s ? s : d` for an optional string (JS `||`: empty string is falsy). -/
def jsOrDefault (v : Option String) (d : String) : String :=
  match v with
  | none => d
  | some x => if x = "" then d else x

/-- The `lines` array of `formatTranscriptWithTimestamps`: a timestamp
entry is pushed whenever the floored minute advances.  Floors and the
nonnegative `%`/`/` of the source are modelled with `Int.ediv`/`Int.emod`
(equal to `Math.floor` arithmetic on the nonnegative timestamps that
occur). -/
def tsLines : List Segment → Int → List (List Char)
  | [], _ => []
  | seg :: rest, currentMinute =>
    let seconds : Int := ⌊seg.start⌋
    let minutes : Int := seconds.ediv 60
    let remainingSeconds : Int := seconds.emod 60
    if minutes > currentMinute then
      ('\n' :: '[' :: (toString minutes).data ++ ':' :: (pad2 remainingSeconds.toNat).data ++ [']'])
        :: seg.text.data :: tsLines rest minutes
    else
      seg.text.data :: tsLines rest currentMinute

/-- State of the scan for `replace(/\[(\d+:\d+)\]\s+/g, "\n[$1] ")`. -/
inductive TsState where
  | s0
  | digitsA (acc : List Char)
  | digitsB (ds1 : List Char) (acc : List Char)
  | closed (ds1 ds2 : List Char)
  | inWsRun (ds1 ds2 : List Char)

/-- The text consumed so far by a failed timestamp-pattern attempt,
re-emitted literally (no later match can start inside it: it contains no
opening bracket). -/
def tsEmitFail : TsState → List Char
  | .s0 => []
  | .digitsA acc => '[' :: acc.reverse
  | .digitsB ds1 acc => '[' :: (ds1 ++ ':' :: acc.reverse)
  | .closed ds1 ds2 => '[' :: (ds1 ++ ':' :: ds2 ++ [']'])
  | .inWsRun _ _ => []

/-- The replacement text `"\n[" ++ $1 ++ "] "`. -/
def tsRepl (ds1 ds2 : List Char) : List Char :=
  '\n' :: '[' :: (ds1 ++ ':' :: ds2 ++ [']', ' '])

/-- Single left-to-right scan of `replace(/\[(\d+:\d+)\]\s+/g, "\n[$1] ")`
with greedy digit runs and a greedy trailing whitespace run. -/
def tsAux : TsState → List Char → List Char
  | .s0, [] => []
  | .s0, c :: rest =>
    if c = '[' then tsAux (.digitsA []) rest else c :: tsAux .s0 rest
  | .digitsA acc, [] => tsEmitFail (.digitsA acc)
  | .digitsA acc, c :: rest =>
    if c.isDigit then tsAux (.digitsA (c :: acc)) rest
    else if c = ':' ∧ acc ≠ [] then tsAux (.digitsB acc.reverse []) rest
    else if c = '[' then tsEmitFail (.digitsA acc) ++ tsAux (.digitsA []) rest
    else tsEmitFail (.digitsA acc) ++ c :: tsAux .s0 rest
  | .digitsB ds1 acc, [] => tsEmitFail (.digitsB ds1 acc)
  | .digitsB ds1 acc, c :: rest =>
    if c.isDigit then tsAux (.digitsB ds1 (c :: acc)) rest
    else if c = ']' ∧ acc ≠ [] then tsAux (.closed ds1 acc.reverse) rest
    else if c = '[' then tsEmitFail (.digitsB ds1 acc) ++ tsAux (.digitsA []) rest
    else tsEmitFail (.digitsB ds1 acc) ++ c :: tsAux .s0 rest
  | .closed ds1 ds2, [] => tsEmitFail (.closed ds1 ds2)
  | .closed ds1 ds2, c :: rest =>
    if isSpaceJS c then tsAux (.inWsRun ds1 ds2) rest
    else if c = '[' then tsEmitFail (.closed ds1 ds2) ++ tsAux (.digitsA []) rest
    else tsEmitFail (.closed ds1 ds2) ++ c :: tsAux .s0 rest
  | .inWsRun ds1 ds2, [] => tsRepl ds1 ds2
  | .inWsRun ds1 ds2, c :: rest =>
    if isSpaceJS c then tsAux (.inWsRun ds1 ds2) rest
    else if c = '[' then tsRepl ds1 ds2 ++ tsAux (.digitsA []) rest
    else tsRepl ds1 ds2 ++ c :: tsAux .s0 rest

/-- `replace(/\[(\d+:\d+)\]\s+/g, "\n[$1] ")`. -/
def tsFix (cs : List Char) : List Char := tsAux .s0 cs

/-- `formatTranscriptWithTimestamps` of the transcript tool: join the
lines with spaces, collapse whitespace, re-shape the timestamps onto new
lines, fix punctuation spacing (this variant includes `:`), trim. -/
def formatTranscriptWithTimestamps (segments : List Segment) : String :=
  String.mk (jsTrimL (punctFixAux ['.', ',', ';', ':', '!', '?']
    (tsFix (collapseWs (joinSpace (tsLines segments (-1)))))))

/-- A transcript tool result: the success payload, the shaped
`{error, videoId}` payload for an empty transcript (note: no `type` tag),
the caught-`Error` payload `{error, type: "transcript_error", details}`,
and the non-`Error` catch payload `{error, type: "system_error"}`. -/
inductive TranscriptResult where
  | success (videoId transcript formattedTranscript language : String)
      (textLength wordCount : Nat) (summary : String)
  | noTranscript (videoId : String)
  | toolError (message : String)
  | sysError
deriving DecidableEq

/-- Does the returned object carry an `error` field. -/
def TranscriptResult.hasErrorField : TranscriptResult → Bool
  | .success .. => false
  | _ => true

/-- Does the returned object carry a `type` category tag. -/
def TranscriptResult.hasTypeTag : TranscriptResult → Bool
  | .toolError _ => true
  | .sysError => true
  | _ => false

/-- Is the result the success payload. -/
def TranscriptResult.isSuccess : TranscriptResult → Bool
  | .success .. => true
  | _ => false

/-- `processTranscript`: empty data gives the `{error, videoId}` payload;
otherwise the text is joined, cleaned, summarized (first 100 words of the
single-space split, ellipsis exactly when more than 100) and paired with
the timestamped rendering. -/
def processTranscript (transcriptData : List Segment) (videoId : String)
    (language : Option String) : TranscriptResult :=
  if transcriptData = [] then .noTranscript videoId
  else
    let fullText := cleanTranscriptText (joinSpace (transcriptData.map (fun seg => seg.text.data)))
    let words := splitCharL ' ' fullText
    let summary := joinSpace (words.take 100) ++ (if words.length > 100 then "...".data else [])
    .success videoId (String.mk fullText) (formatTranscriptWithTimestamps transcriptData)
      (jsOrDefault language "auto") fullText.length words.length (String.mk summary)

/-! ### The per-tool time-boxed cache

A JS `Map` keyed by strings, holding `{data, timestamp}` entries; `set`
replaces in place or appends. -/

/-- `Map.get` (entries are unique per key; first wins). -/
def cacheLookup {α : Type} : List (String × α × Int) → String → Option (α × Int)
  | [], _ => none
  | (k2, v, t) :: rest, k => if k2 = k then some (v, t) else cacheLookup rest k

/-- `Map.set`: replace in place or append. -/
def cacheSet {α : Type} : List (String × α × Int) → String → α → Int → List (String × α × Int)
  | [], k, v, t => [(k, v, t)]
  | (k2, v2, t2) :: rest, k, v, t =>
    if k2 = k then (k, v, t) :: rest else (k2, v2, t2) :: cacheSet rest k v t

/-- A `set` key is found with its fresh payload and timestamp. -/
theorem cacheLookup_cacheSet {α : Type} (m : List (String × α × Int)) (k : String) (v : α) (t : Int) :
    cacheLookup (cacheSet m k v t) k = some (v, t) := by
  induction m with
  | nil => simp [cacheSet, cacheLookup]
  | cons e rest ih =>
    obtain ⟨k2, v2, t2⟩ := e
    by_cases hk : k2 = k
    · simp [cacheSet, cacheLookup, hk]
    · simp [cacheSet, cacheLookup, hk, ih]

/-- `TRANSCRIPT_CACHE_TTL` (one hour in milliseconds). -/
def TRANSCRIPT_CACHE_TTL : Int := 3600 * 1000

/-- A thrown JS value: an `Error` instance with a message, or anything
else (the `instanceof Error` test in the catch blocks distinguishes
them). -/
inductive Thrown where
  | errorObj (message : String)
  | other
deriving DecidableEq

/-- The cache key `${videoId}${language ? `_${language}` : ""}`. -/
def transcriptCacheKey (videoId : String) (language : Option String) : String :=
  videoId ++ (match language with
    | some l => if l = "" then "" else "_" ++ l
    | none => "")

/-- The miss path of `fetchTranscript`: one external call (the oracle is
the proxied transcript fetch, lines 35-45); a throw propagates, a payload
is processed and written through the cache unconditionally. -/
def fetchTranscriptMiss (cache : List (String × TranscriptResult × Int)) (now : Int)
    (oracle : Except Thrown (List Segment)) (videoId : String) (language : Option String)
    (cacheKey : String) :
    Except Thrown TranscriptResult × List (String × TranscriptResult × Int) × Nat :=
  match oracle with
  | .error t => (.error t, cache, 1)
  | .ok data =>
    let processed := processTranscript data videoId language
    (.ok processed, cacheSet cache cacheKey processed now, 1)

/-- `fetchTranscript`: cache hit inside the TTL returns the stored data
verbatim with no external call; otherwise the miss path runs.  The result
triple is (returned-or-thrown value, cache afterwards, external calls). -/
def fetchTranscript (cache : List (String × TranscriptResult × Int)) (now : Int)
    (oracle : Except Thrown (List Segment)) (videoId : String) (language : Option String) :
    Except Thrown TranscriptResult × List (String × TranscriptResult × Int) × Nat :=
  match cacheLookup cache (transcriptCacheKey videoId language) with
  | some (d, ts) =>
    if now - ts < TRANSCRIPT_CACHE_TTL then (.ok d, cache, 0)
    else fetchTranscriptMiss cache now oracle videoId language (transcriptCacheKey videoId language)
  | none => fetchTranscriptMiss cache now oracle videoId language (transcriptCacheKey videoId language)

/-- `youtubeTranscriptTool.execute`: parse the optional language suffix,
extract the identifier, fetch; every throw is converted to an error
payload (`Error` instances to `transcript_error`, anything else to
`system_error`). -/
def transcriptExecute (cache : List (String × TranscriptResult × Int)) (now : Int)
    (oracle : Except Thrown (List Segment)) (input : String) :
    TranscriptResult × List (String × TranscriptResult × Int) × Nat :=
  let parts := (splitCharS '|' input).take 2
  let videoInput := jsTrim (parts.headD "")
  let language :=
    match parts with
    | _ :: second :: _ => some (jsTrim second)
    | _ => none
  match extractVideoId videoInput with
  | .error e => (.toolError e.message, cache, 0)
  | .ok videoId =>
    match fetchTranscript cache now oracle videoId language with
    | (.ok r, c, n) => (r, c, n)
    | (.error (.errorObj msg), c, n) => (.toolError msg, c, n)
    | (.error .other, c, n) => (.sysError, c, n)

/-! ### Claims C1 and C2 about the time-boxed cache -/

/-- C2: for every key, a `get` at time `now` is a hit exactly when an
entry exists with `now - storedAt < TTL`; a hit returns the stored payload
verbatim, makes no external call and leaves the cache untouched; an
expired or absent entry makes exactly one external call, and an expired
entry is not removed: it survives a failed call unchanged and is only
overwritten by the `set` of a successful one. -/
theorem fetchTranscript_cache_ttl (cache : List (String × TranscriptResult × Int))
    (now : Int) (oracle : Except Thrown (List Segment))
    (videoId : String) (language : Option String) :
    (∀ d ts, cacheLookup cache (transcriptCacheKey videoId language) = some (d, ts) →
      (now - ts < TRANSCRIPT_CACHE_TTL →
        fetchTranscript cache now oracle videoId language = (.ok d, cache, 0)) ∧
      (TRANSCRIPT_CACHE_TTL ≤ now - ts →
        (fetchTranscript cache now oracle videoId language).2.2 = 1 ∧
        (∀ t, oracle = .error t →
          (fetchTranscript cache now oracle videoId language).2.1 = cache) ∧
        (∀ data, oracle = .ok data →
          (fetchTranscript cache now oracle videoId language).2.1 =
            cacheSet cache (transcriptCacheKey videoId language)
              (processTranscript data videoId language) now))) ∧
    (cacheLookup cache (transcriptCacheKey videoId language) = none →
      (fetchTranscript cache now oracle videoId language).2.2 = 1) := by
  constructor
  · intro d ts hlook
    constructor
    · intro hfresh
      unfold fetchTranscript
      rw [hlook]
      simp [hfresh]
    · intro hstale
      have hcond : ¬(now - ts < TRANSCRIPT_CACHE_TTL) := not_lt.mpr hstale
      unfold fetchTranscript
      rw [hlook]
      simp only [if_neg hcond]
      refine ⟨?_, ?_, ?_⟩
      · cases oracle <;> simp [fetchTranscriptMiss]
      · intro t ht
        subst ht
        simp [fetchTranscriptMiss]
      · intro data hdata
        subst hdata
        simp [fetchTranscriptMiss]
  · intro hnone
    unfold fetchTranscript
    rw [hnone]
    cases oracle <;> simp [fetchTranscriptMiss]

/-- Witness for C2: a fresh hit returns the stored payload with zero
external calls, leaving the cache as it was. -/
theorem fetchTranscript_cache_ttl_witness :
    cacheLookup [("abcdefghijk", (TranscriptResult.noTranscript "p", 0))]
      (transcriptCacheKey "abcdefghijk" none) = some (.noTranscript "p", 0) ∧
    fetchTranscript [("abcdefghijk", (TranscriptResult.noTranscript "p", 0))] 5
      (.ok []) "abcdefghijk" none =
      (.ok (.noTranscript "p"), [("abcdefghijk", (.noTranscript "p", 0))], 0) :=
  ⟨by decide,
   ((fetchTranscript_cache_ttl [("abcdefghijk", (TranscriptResult.noTranscript "p", 0))]
      5 (.ok []) "abcdefghijk" none).1 (.noTranscript "p") 0 (by decide)).1 (by decide)⟩

/-- Counterexample to C1 as stated: an invocation whose shaping step
produces the `{error, videoId}` payload (empty transcript data) does
write that error payload to the cache, and a later call inside the TTL
returns it as a hit with no external call — even though the external
source would by then return a transcript. -/
theorem fetchTranscript_error_payload_cached :
    fetchTranscript [] 0 (.ok []) "abcdefghijk" none =
      (.ok (.noTranscript "abcdefghijk"),
       [("abcdefghijk", (.noTranscript "abcdefghijk", 0))], 1) ∧
    (TranscriptResult.noTranscript "abcdefghijk").hasErrorField = true ∧
    cacheLookup [("abcdefghijk", (TranscriptResult.noTranscript "abcdefghijk", 0))]
      (transcriptCacheKey "abcdefghijk" none) =
      some (.noTranscript "abcdefghijk", 0) ∧
    fetchTranscript [("abcdefghijk", (TranscriptResult.noTranscript "abcdefghijk", 0))] 1
      (.ok [{ text := "real words", start := 0, duration := 1 }]) "abcdefghijk" none =
      (.ok (.noTranscript "abcdefghijk"),
       [("abcdefghijk", (.noTranscript "abcdefghijk", 0))], 0) := by
  refine ⟨by rfl, by decide, by decide, by rfl⟩

/-- C1 (amended): the shaped result of a miss is written to the cache
unconditionally — error payloads exactly like successes — and any call
with the same key within the TTL returns that stored payload as a hit
with no external call. -/
theorem fetchTranscript_caches_all_results
    (cache : List (String × TranscriptResult × Int)) (now : Int)
    (oracle : Except Thrown (List Segment)) (videoId : String) (language : Option String)
    (data : List Segment)
    (hstale : ∀ d ts, cacheLookup cache (transcriptCacheKey videoId language) = some (d, ts) →
      TRANSCRIPT_CACHE_TTL ≤ now - ts)
    (hok : oracle = .ok data) :
    fetchTranscript cache now oracle videoId language =
      (.ok (processTranscript data videoId language),
       cacheSet cache (transcriptCacheKey videoId language)
         (processTranscript data videoId language) now, 1) ∧
    ∀ now2 oracle2, now2 - now < TRANSCRIPT_CACHE_TTL →
      fetchTranscript
        (cacheSet cache (transcriptCacheKey videoId language)
          (processTranscript data videoId language) now) now2 oracle2 videoId language =
        (.ok (processTranscript data videoId language),
         cacheSet cache (transcriptCacheKey videoId language)
           (processTranscript data videoId language) now, 0) := by
  subst hok
  constructor
  · unfold fetchTranscript
    cases hlook : cacheLookup cache (transcriptCacheKey videoId language) with
    | none => simp [fetchTranscriptMiss]
    | some e =>
      obtain ⟨d, ts⟩ := e
      have := hstale d ts hlook
      simp only [if_neg (not_lt.mpr this)]
      simp [fetchTranscriptMiss]
  · intro now2 oracle2 hfresh
    unfold fetchTranscript
    rw [cacheLookup_cacheSet]
    simp [hfresh]

/-- Witness for the amended C1: a miss over an empty cache whose shaping
produces the error payload stores it, and the error payload round-trips
as a hit one millisecond later. -/
theorem fetchTranscript_caches_all_results_witness :
    fetchTranscript [] 0 (.ok []) "zyxwvutsrqp" none =
      (.ok (.noTranscript "zyxwvutsrqp"),
       [("zyxwvutsrqp", (.noTranscript "zyxwvutsrqp", 0))], 1) ∧
    fetchTranscript [("zyxwvutsrqp", (TranscriptResult.noTranscript "zyxwvutsrqp", 0))] 1
      (.error .other) "zyxwvutsrqp" none =
      (.ok (.noTranscript "zyxwvutsrqp"),
       [("zyxwvutsrqp", (.noTranscript "zyxwvutsrqp", 0))], 0) := by
  have h := fetchTranscript_caches_all_results [] 0 (.ok []) "zyxwvutsrqp" none []
    (by intro d ts h; simp [cacheLookup] at h) rfl
  exact ⟨h.1, by
    have h2 := h.2 1 (.error .other) (by decide)
    simpa using h2⟩

/-! ## Transcript route handler (`app/(chat)/api/youtube/transcript/route.ts`)

`fetchTranscriptDirectly` builds its success payload from the parsed
transcript items (source lines 99-107); the HTML/XML scraping that
produces the items is the external collaborator and stays outside the
model.  Note the summary: `.split(/\s+/).slice(0, 100).join(" ") + "..."`
— the ellipsis is appended unconditionally. -/

/-- The `formattedText` accumulation of the route handler's
`formatTranscriptWithTimestamps` (lines 140-157): a `"\n[m:ss] "` header
whenever the floored minute advances, then the text plus one space. -/
def routeTsText : List Segment → Int → List Char
  | [], _ => []
  | item :: rest, currentMinute =>
    let seconds : Int := ⌊item.start⌋
    let minutes : Int := seconds.ediv 60
    let remainingSeconds : Int := seconds.emod 60
    if minutes > currentMinute then
      ('\n' :: '[' :: (toString minutes).data ++ ':' :: (pad2 remainingSeconds.toNat).data ++ [']', ' '])
        ++ item.text.data ++ ' ' :: routeTsText rest minutes
    else
      item.text.data ++ ' ' :: routeTsText rest currentMinute

/-- The route handler's timestamp rendering (trimmed at the end). -/
def routeFormatTranscript (transcript : List Segment) : String :=
  String.mk (jsTrimL (routeTsText transcript (-1)))

/-- The success payload of `fetchTranscriptDirectly`. -/
structure RouteTranscriptPayload where
  videoId : String
  transcript : String
  formattedTranscript : String
  language : String
  textLength : Nat
  wordCount : Nat
  summary : String
deriving DecidableEq

/-- Lines 99-107 of the transcript route: join the item texts with
spaces; word count and summary use `split(/\s+/)`; the summary always
carries the trailing `"..."`. -/
def routeTranscriptPayload (videoId : String) (transcript : List Segment)
    (languageCode : Option String) : RouteTranscriptPayload :=
  let joined := joinSpace (transcript.map (fun item => item.text.data))
  { videoId := videoId
    transcript := String.mk joined
    formattedTranscript := routeFormatTranscript transcript
    language := jsOrDefault languageCode "auto"
    textLength := joined.length
    wordCount := (splitWsJS joined).length
    summary := String.mk (joinSpace ((splitWsJS joined).take 100) ++ "...".data) }

/-! ### Claim C9: the 100-word summary -/

/-- The `summary` field of a transcript tool result. -/
def TranscriptResult.summaryOf : TranscriptResult → Option String
  | .success _ _ _ _ _ _ summary => some summary
  | _ => none

/-- The cleaned full text `processTranscript` derives from the segments. -/
def toolCleanText (segs : List Segment) : List Char :=
  cleanTranscriptText (joinSpace (segs.map (fun seg => seg.text.data)))

/-- The single-space word split the tool derives the summary from. -/
def toolWords (segs : List Segment) : List (List Char) :=
  splitCharL ' ' (toolCleanText segs)

/-- Counterexample to C9 as stated: the transcript route handler's result
for a one-word transcript has `wordCount = 1` (far below 100) yet its
summary carries the ellipsis and differs from the transcript. -/
theorem routeSummary_always_ellipsis :
    (routeTranscriptPayload "abcdefghijk"
      [{ text := "hello", start := 0, duration := 1 }] none).wordCount = 1 ∧
    (routeTranscriptPayload "abcdefghijk"
      [{ text := "hello", start := 0, duration := 1 }] none).summary = "hello..." ∧
    (routeTranscriptPayload "abcdefghijk"
      [{ text := "hello", start := 0, duration := 1 }] none).transcript = "hello" := by
  refine ⟨by decide, by decide, by decide⟩

/-- C9 (amended): in the transcript tool, the summary is the first 100
single-space-separated words of the cleaned transcript with `"..."`
appended exactly when there are more than 100 such words — a transcript
of at most 100 words is its own summary, unchanged; the transcript route
handler instead always appends the ellipsis to its summary. -/
theorem transcript_summary_spec (segs : List Segment) (videoId : String)
    (language : Option String) (h : segs ≠ []) :
    ((processTranscript segs videoId language).summaryOf =
      some (String.mk (joinSpace ((toolWords segs).take 100) ++
        (if (toolWords segs).length > 100 then "...".data else [])))) ∧
    ((toolWords segs).length ≤ 100 →
      (processTranscript segs videoId language).summaryOf =
        some (String.mk (toolCleanText segs))) ∧
    (∀ (vid : String) (tr : List Segment) (lc : Option String),
      (routeTranscriptPayload vid tr lc).summary =
        String.mk (joinSpace ((splitWsJS (joinSpace (tr.map (fun item => item.text.data)))).take 100)
          ++ "...".data)) := by
  refine ⟨?_, ?_, fun vid tr lc => rfl⟩
  · simp only [processTranscript, if_neg h, TranscriptResult.summaryOf, toolWords, toolCleanText]
  · intro hle
    simp only [processTranscript, if_neg h, TranscriptResult.summaryOf, toolWords, toolCleanText] at *
    rw [List.take_of_length_le hle]
    rw [if_neg (by omega)]
    rw [joinSpace_splitCharL]
    simp

/-- Witness for C9 (amended) at a one-word transcript: its tool summary is
the cleaned text itself. -/
theorem transcript_summary_spec_witness :
    (toolWords [{ text := "hello", start := 0, duration := 1 }]).length ≤ 100 ∧
    (processTranscript [{ text := "hello", start := 0, duration := 1 }] "abcdefghijk" none).summaryOf =
      some (String.mk (toolCleanText [{ text := "hello", start := 0, duration := 1 }])) :=
  ⟨by decide,
   (transcript_summary_spec [{ text := "hello", start := 0, duration := 1 }] "abcdefghijk" none
     (by decide)).2.1 (by decide)⟩

/-! ## Discovery tool search (`lib/youtube/discovery-tool.ts`)

`searchVideos` derives the cache key from the query plus
`JSON.stringify(params)`, consults the cache, and on a miss performs the
one external search call (the URL building of lines 90-121 only shapes
the collaborator request and is part of the oracle), then shapes the
response with `processSearchResults` and writes it through the cache
unconditionally. -/

/-- JS truthiness of an optional string (absent or empty is falsy). -/
def strTruthy (o : Option String) : Bool :=
  match o with
  | some v => v ≠ ""
  | none => false

/-- The `sort` keyword as serialized. -/
def sortToStr : SortKind → String
  | .relevance => "relevance"
  | .date => "date"
  | .views => "views"
  | .rating => "rating"

/-- The `duration` keyword as serialized. -/
def durToStr : DurKind → String
  | .short => "short"
  | .medium => "medium"
  | .long => "long"

/-- `JSON.stringify(params)` in the insertion order of `parseInput`. -/
def stringifyParams (p : SearchParams) : String :=
  "\x7b\"count\":" ++ toString p.count ++
  ",\"sort\":\"" ++ sortToStr p.sort ++
  "\",\"recent\":" ++ (if p.recent then "true" else "false") ++
  ",\"minViews\":" ++ toString p.minViews ++
  ",\"duration\":" ++
    (match p.duration with
     | none => "null"
     | some d => "\"" ++ durToStr d ++ "\"") ++
  "\x7d"

/-- A search result item as the search route shapes it. -/
structure SearchItem where
  videoId : Option String
  title : Option String
  description : Option String
  channelId : Option String
  channelTitle : Option String
  views : Option Nat
  viewsFormatted : Option String
  duration : Option String
  uploadedAt : Option String
  thumbnail : Option String
  url : Option String
deriving DecidableEq

/-- The raw JSON body the search endpoint returns. -/
structure RawSearch where
  error : Option String
  results : Option (List SearchItem)
  totalResults : Option Nat
  query : Option String
  channelId : Option String
  playlistId : Option String
deriving DecidableEq

/-- A discovery tool result: the spread success payload
`{...results, query, searchParams, resultCount}`, the shaped
`{error, query}` payload (no `type` tag), the empty-query payload, the
caught-`Error` payload (both `type: "search_error"`), and the
non-`Error` catch payload (`type: "system_error"`). -/
inductive SearchResult where
  | ok (data : RawSearch) (query : String) (searchParams : SearchParams) (resultCount : Nat)
  | failed (message : String) (query : String)
  | emptyQuery
  | caught (message : String) (query : String)
  | sysErr
deriving DecidableEq

/-- Add `viewsFormatted` when `views` is truthy (line 160-162). -/
def addViewsFormatted (item : SearchItem) : SearchItem :=
  match item.views with
  | some v => if v ≠ 0 then { item with viewsFormatted := some (formatNumber v) } else item
  | none => item

/-- The success branch of `processSearchResults`. -/
def searchSuccess (raw : RawSearch) (query : String) (params : SearchParams) : SearchResult :=
  let newResults := raw.results.map (fun items => items.map addViewsFormatted)
  .ok { raw with results := newResults } query params
    (match newResults with
     | some items => items.length
     | none => 0)

/-- `processSearchResults`: a missing body or a truthy `error` field gives
the `{error, query}` payload, otherwise the spread success payload. -/
def processSearchResults (results : Option RawSearch) (query : String)
    (params : SearchParams) : SearchResult :=
  match results with
  | none => .failed "Failed to perform search" query
  | some raw =>
    match raw.error with
    | some e => if e = "" then searchSuccess raw query params else .failed e query
    | none => searchSuccess raw query params

/-- `SEARCH_CACHE_TTL` (one hour in milliseconds). -/
def SEARCH_CACHE_TTL : Int := 3600 * 1000

/-- The cache key `${query}_${JSON.stringify(params)}`. -/
def searchCacheKey (query : String) (params : SearchParams) : String :=
  query ++ "_" ++ stringifyParams params

/-- The miss path of `searchVideos`: one external call, unconditional
write-through of the shaped result. -/
def searchVideosMiss (cache : List (String × SearchResult × Int)) (now : Int)
    (oracle : Except Thrown (Option RawSearch)) (query : String) (params : SearchParams) :
    Except Thrown SearchResult × List (String × SearchResult × Int) × Nat :=
  match oracle with
  | .error t => (.error t, cache, 1)
  | .ok data =>
    let processed := processSearchResults data query params
    (.ok processed, cacheSet cache (searchCacheKey query params) processed now, 1)

/-- `searchVideos` of the discovery tool. -/
def searchVideos (cache : List (String × SearchResult × Int)) (now : Int)
    (oracle : Except Thrown (Option RawSearch)) (query : String) (params : SearchParams) :
    Except Thrown SearchResult × List (String × SearchResult × Int) × Nat :=
  match cacheLookup cache (searchCacheKey query params) with
  | some (d, ts) =>
    if now - ts < SEARCH_CACHE_TTL then (.ok d, cache, 0)
    else searchVideosMiss cache now oracle query params
  | none => searchVideosMiss cache now oracle query params

/-- `youtubeDiscoveryTool.execute`: parse, reject an empty query, search;
a thrown `Error` becomes `{error, query: input, type: "search_error"}`
and anything else `{error, type: "system_error"}`. -/
def discoveryExecute (cache : List (String × SearchResult × Int)) (now : Int)
    (oracle : Except Thrown (Option RawSearch)) (input : String) :
    SearchResult × List (String × SearchResult × Int) × Nat :=
  let qp := parseInput input
  if qp.1 = "" then (.emptyQuery, cache, 0)
  else
    match searchVideos cache now oracle qp.1 qp.2 with
    | (.ok r, c, n) => (r, c, n)
    | (.error (.errorObj msg), c, n) => (.caught msg input, c, n)
    | (.error .other, c, n) => (.sysErr, c, n)

/-- Does the returned object carry an `error` field (the spread success
payload keeps a falsy `""` error field when the body carried one). -/
def SearchResult.hasErrorField : SearchResult → Bool
  | .ok data _ _ _ => data.error.isSome
  | _ => true

/-- Does the returned object carry a `type` category tag. -/
def SearchResult.hasTypeTag : SearchResult → Bool
  | .emptyQuery => true
  | .caught _ _ => true
  | .sysErr => true
  | _ => false

/-- Is the result the spread success payload. -/
def SearchResult.isSuccess : SearchResult → Bool
  | .ok _ _ _ _ => true
  | _ => false

/-- Is the result one of the shaped error payloads built from a missing
or failed body (`{error, query}` — contextual identifier, no tag). -/
def SearchResult.isShapedError : SearchResult → Bool
  | .failed _ _ => true
  | .ok data _ _ _ => data.error.isSome
  | _ => false

/-! ## Download tool (`lib/youtube/download-tool.ts`)

The download route returns, per mode, either plain metadata, an audio
stream list, or format buckets plus a best-quality selection; the tool
adds human-readable `Formatted` fields and caches per
`${videoId}_${mode}`. -/

/-- The three download modes. -/
inductive DownloadMode where
  | metadata_only | audio_info | formats
deriving DecidableEq

/-- The mode keyword as it appears in the cache key. -/
def modeStr : DownloadMode → String
  | .metadata_only => "metadata_only"
  | .audio_info => "audio_info"
  | .formats => "formats"

/-- An audio stream entry as the download route shapes it. -/
structure AudioStream where
  formatId : Option String
  ext : Option String
  acodec : Option String
  abr : Option Rat
  asr : Option Rat
  filesize : Option Nat
  filesizeFormatted : Option String
  url : Option String
deriving DecidableEq

/-- A format entry of the route's `combined`/`videoOnly`/`audioOnly`
buckets (`filesizeFormatted` is added later by the tool). -/
structure FormatInfo where
  formatId : Option String
  ext : Option String
  resolution : Option String
  fps : Option Rat
  vcodec : Option String
  acodec : Option String
  abr : Option Rat
  vbr : Option Rat
  filesize : Option Nat
  filesizeFormatted : Option String
  formatNote : Option String
deriving DecidableEq

/-- A raw yt-dlp format object (the fields the route reads; these objects
carry a `filesize` key, possibly undefined, so the tool's
`"filesize" in value` test succeeds on them). -/
structure RawFormat where
  format_id : Option String
  ext : Option String
  resolution : Option String
  fps : Option Rat
  vcodec : Option String
  acodec : Option String
  abr : Option Rat
  vbr : Option Rat
  filesize : Option Nat
  filesizeFormatted : Option String
  format_note : Option String
deriving DecidableEq

/-- The three format buckets. -/
structure FormatBuckets where
  combined : List FormatInfo
  videoOnly : List FormatInfo
  audioOnly : List FormatInfo
deriving DecidableEq

/-- The route's best-quality selection (raw yt-dlp formats). -/
structure BestQuality where
  best : Option RawFormat
  bestVideo : Option RawFormat
  bestAudio : Option RawFormat
deriving DecidableEq

/-- The JSON body the download endpoint returns (the union of the three
mode shapes; absent fields are `none`). -/
structure RawDownload where
  error : Option String
  videoId : Option String
  title : Option String
  description : Option String
  channelId : Option String
  channelTitle : Option String
  viewCount : Option Nat
  viewCountFormatted : Option String
  likeCount : Option Nat
  likeCountFormatted : Option String
  duration : Option Nat
  durationFormatted : Option String
  uploadDate : Option String
  uploadDateFormatted : Option String
  thumbnail : Option String
  categories : Option (List String)
  tags : Option (List String)
  url : Option String
  audioStreams : Option (List AudioStream)
  formats : Option FormatBuckets
  bestQuality : Option BestQuality
deriving DecidableEq

/-- A download tool result: the processed body, the shaped
`{error, videoId}` payload (no `type` tag), the caught-`Error` payload
(`type: "download_error"`, `videoId` echoed when the raw input is 11
characters), and the non-`Error` catch payload (`type: "system_error"`). -/
inductive DownloadResult where
  | ok (data : RawDownload)
  | failed (message : String) (videoId : Option String)
  | caught (message : String) (videoId : Option String)
  | sysErr
deriving DecidableEq

/-- `processVideoMetadata` formatted-field mutations (each only when the
raw value is truthy). -/
def addMetaFormatted (d : RawDownload) : RawDownload :=
  let d1 := match d.viewCount with
    | some v => if v ≠ 0 then { d with viewCountFormatted := some (formatNumber v) } else d
    | none => d
  let d2 := match d1.likeCount with
    | some v => if v ≠ 0 then { d1 with likeCountFormatted := some (formatNumber v) } else d1
    | none => d1
  let d3 := match d2.duration with
    | some v => if v ≠ 0 then { d2 with durationFormatted := some (formatDuration (some v)) } else d2
    | none => d2
  match d3.uploadDate with
  | some u => if u ≠ "" then { d3 with uploadDateFormatted := some (formatDate (some u)) } else d3
  | none => d3

/-- `processVideoMetadata`. -/
def processVideoMetadata (data : Option RawDownload) : DownloadResult :=
  match data with
  | none => .failed "Failed to retrieve video metadata" none
  | some d =>
    match d.error with
    | some e => if e = "" then .ok (addMetaFormatted d) else .failed e d.videoId
    | none => .ok (addMetaFormatted d)

/-- Add `filesizeFormatted` to a stream when `filesize` is truthy. -/
def addStreamFilesize (st : AudioStream) : AudioStream :=
  match st.filesize with
  | some v => if v ≠ 0 then { st with filesizeFormatted := some (formatFilesize (some v)) } else st
  | none => st

/-- `processAudioStreams`. -/
def processAudioStreams (data : Option RawDownload) : DownloadResult :=
  match data with
  | none => .failed "Failed to retrieve audio information" none
  | some d =>
    match d.error with
    | some e =>
      if e = "" then .ok { d with audioStreams := d.audioStreams.map (List.map addStreamFilesize) }
      else .failed e d.videoId
    | none => .ok { d with audioStreams := d.audioStreams.map (List.map addStreamFilesize) }

/-- Add `filesizeFormatted` to a bucket entry when `filesize` is truthy. -/
def addFmtFilesize (f : FormatInfo) : FormatInfo :=
  match f.filesize with
  | some v => if v ≠ 0 then { f with filesizeFormatted := some (formatFilesize (some v)) } else f
  | none => f

/-- The `Object.entries(bestQuality)` loop: every present entry gets a
`filesizeFormatted` (possibly `"Unknown"`). -/
def addBQFilesize (bq : BestQuality) : BestQuality :=
  { best := bq.best.map (fun f => { f with filesizeFormatted := some (formatFilesize f.filesize) })
    bestVideo := bq.bestVideo.map (fun f => { f with filesizeFormatted := some (formatFilesize f.filesize) })
    bestAudio := bq.bestAudio.map (fun f => { f with filesizeFormatted := some (formatFilesize f.filesize) }) }

/-- `processFormats`. -/
def processFormats (data : Option RawDownload) : DownloadResult :=
  match data with
  | none => .failed "Failed to retrieve format information" none
  | some d =>
    match d.error with
    | some e =>
      if e = "" then
        .ok { d with
          formats := d.formats.map (fun b =>
            { combined := b.combined.map addFmtFilesize
              videoOnly := b.videoOnly.map addFmtFilesize
              audioOnly := b.audioOnly.map addFmtFilesize })
          bestQuality := d.bestQuality.map addBQFilesize }
      else .failed e d.videoId
    | none =>
      .ok { d with
        formats := d.formats.map (fun b =>
          { combined := b.combined.map addFmtFilesize
            videoOnly := b.videoOnly.map addFmtFilesize
            audioOnly := b.audioOnly.map addFmtFilesize })
        bestQuality := d.bestQuality.map addBQFilesize }

/-- `DOWNLOAD_CACHE_TTL` (one hour in milliseconds). -/
def DOWNLOAD_CACHE_TTL : Int := 3600 * 1000

/-- The cache key `${videoId}_${mode}`. -/
def downloadCacheKey (videoId : String) (mode : DownloadMode) : String :=
  videoId ++ "_" ++ modeStr mode

/-- The per-mode processing dispatch of `getVideoInfo`. -/
def processByMode (mode : DownloadMode) (data : Option RawDownload) : DownloadResult :=
  match mode with
  | .metadata_only => processVideoMetadata data
  | .audio_info => processAudioStreams data
  | .formats => processFormats data

/-- The miss path of `getVideoInfo`. -/
def getVideoInfoMiss (cache : List (String × DownloadResult × Int)) (now : Int)
    (oracle : Except Thrown (Option RawDownload)) (videoId : String) (mode : DownloadMode) :
    Except Thrown DownloadResult × List (String × DownloadResult × Int) × Nat :=
  match oracle with
  | .error t => (.error t, cache, 1)
  | .ok data =>
    let processed := processByMode mode data
    (.ok processed, cacheSet cache (downloadCacheKey videoId mode) processed now, 1)

/-- `getVideoInfo` of the download tool. -/
def getVideoInfo (cache : List (String × DownloadResult × Int)) (now : Int)
    (oracle : Except Thrown (Option RawDownload)) (videoId : String) (mode : DownloadMode) :
    Except Thrown DownloadResult × List (String × DownloadResult × Int) × Nat :=
  match cacheLookup cache (downloadCacheKey videoId mode) with
  | some (d, ts) =>
    if now - ts < DOWNLOAD_CACHE_TTL then (.ok d, cache, 0)
    else getVideoInfoMiss cache now oracle videoId mode
  | none => getVideoInfoMiss cache now oracle videoId mode

/-- `parseInput` of the download tool: optional mode suffix (only
`audio_info` and `formats` recognized), then identifier extraction (which
may throw). -/
def downloadParseInput (input : String) : Except ExtractErr (String × DownloadMode) :=
  let parts := (splitCharS '|' input).take 2
  let videoInput := jsTrim (parts.headD "")
  let mode :=
    match parts with
    | _ :: second :: _ =>
      let param := jsToLower (jsTrim second)
      if param = "audio_info" then DownloadMode.audio_info
      else if param = "formats" then DownloadMode.formats
      else DownloadMode.metadata_only
    | _ => DownloadMode.metadata_only
  (extractVideoId videoInput).map (fun vid => (vid, mode))

/-- `youtubeDownloadTool.execute`: parse (the extraction may throw), get
the mode-shaped info; a thrown `Error` becomes
`{error, videoId: 11-char-input?, type: "download_error"}` and anything
else `{error, type: "system_error"}`. -/
def downloadExecute (cache : List (String × DownloadResult × Int)) (now : Int)
    (oracle : Except Thrown (Option RawDownload)) (input : String) :
    DownloadResult × List (String × DownloadResult × Int) × Nat :=
  match downloadParseInput input with
  | .error e =>
    (.caught e.message (if input.data.length = 11 then some input else none), cache, 0)
  | .ok (vid, mode) =>
    match getVideoInfo cache now oracle vid mode with
    | (.ok r, c, n) => (r, c, n)
    | (.error (.errorObj msg), c, n) =>
      (.caught msg (if input.data.length = 11 then some input else none), c, n)
    | (.error .other, c, n) => (.sysErr, c, n)

/-- Does the returned object carry an `error` field. -/
def DownloadResult.hasErrorField : DownloadResult → Bool
  | .ok data => data.error.isSome
  | _ => true

/-- Does the returned object carry a `type` category tag. -/
def DownloadResult.hasTypeTag : DownloadResult → Bool
  | .caught _ _ => true
  | .sysErr => true
  | _ => false

/-- Is the result the processed success payload. -/
def DownloadResult.isSuccess : DownloadResult → Bool
  | .ok _ => true
  | _ => false

/-- Is the result the shaped `{error, videoId}` payload. -/
def DownloadResult.isShapedError : DownloadResult → Bool
  | .failed _ _ => true
  | .ok data => data.error.isSome
  | _ => false

/-! ### Claim C5: the public execute boundary -/

/-- Is the transcript result the shaped `{error, videoId}` payload. -/
def TranscriptResult.isShapedError : TranscriptResult → Bool
  | .noTranscript _ => true
  | _ => false

/-- Shape of every transcript result value. -/
theorem transcriptResult_shape (r : TranscriptResult) :
    (r.isSuccess || r.hasErrorField) = true ∧
    (r.hasErrorField = true → r.hasTypeTag = false → r.isShapedError = true) := by
  cases r <;>
    simp [TranscriptResult.isSuccess, TranscriptResult.hasErrorField,
      TranscriptResult.hasTypeTag, TranscriptResult.isShapedError]

/-- Shape of every search result value. -/
theorem searchResult_shape (r : SearchResult) :
    (r.isSuccess || r.hasErrorField) = true ∧
    (r.hasErrorField = true → r.hasTypeTag = false → r.isShapedError = true) := by
  cases r <;>
    simp [SearchResult.isSuccess, SearchResult.hasErrorField,
      SearchResult.hasTypeTag, SearchResult.isShapedError]

/-- Shape of every download result value. -/
theorem downloadResult_shape (r : DownloadResult) :
    (r.isSuccess || r.hasErrorField) = true ∧
    (r.hasErrorField = true → r.hasTypeTag = false → r.isShapedError = true) := by
  cases r <;>
    simp [DownloadResult.isSuccess, DownloadResult.hasErrorField,
      DownloadResult.hasTypeTag, DownloadResult.isShapedError]

/-- Counterexample to C5 as stated: the transcript tool's execute returns
the shaped `{error, videoId}` payload for an empty transcript — a value
with an `error` field but no `type` category tag, so the advertised
"success payload or error-with-type" union does not cover it (and the
analogous `{error, query}` / `{error, videoId}` payloads of the other two
tools are equally untagged). -/
theorem transcript_error_without_type_tag :
    (transcriptExecute [] 0 (.ok []) "abcdefghijk").1 = .noTranscript "abcdefghijk" ∧
    (TranscriptResult.noTranscript "abcdefghijk").hasErrorField = true ∧
    (TranscriptResult.noTranscript "abcdefghijk").hasTypeTag = false ∧
    (TranscriptResult.noTranscript "abcdefghijk").isSuccess = false :=
  ⟨rfl, rfl, rfl, rfl⟩

/-- C5 (amended): every tool execute returns a value for every input,
cache state and collaborator outcome — throws are absorbed at the
boundary (`Error` instances and other thrown values alike, as the total
functions above show) — and that value is either the success payload or
carries an `error` field; an error payload without a `type` tag is always
one of the shaped no-data payloads that carry a contextual identifier
(`{error, videoId}` / `{error, query}`) instead. -/
theorem execute_boundary_taxonomy :
    (∀ cache now oracle input,
      ((transcriptExecute cache now oracle input).1.isSuccess ||
        (transcriptExecute cache now oracle input).1.hasErrorField) = true ∧
      ((transcriptExecute cache now oracle input).1.hasErrorField = true →
        (transcriptExecute cache now oracle input).1.hasTypeTag = false →
        (transcriptExecute cache now oracle input).1.isShapedError = true)) ∧
    (∀ cache now oracle input,
      ((discoveryExecute cache now oracle input).1.isSuccess ||
        (discoveryExecute cache now oracle input).1.hasErrorField) = true ∧
      ((discoveryExecute cache now oracle input).1.hasErrorField = true →
        (discoveryExecute cache now oracle input).1.hasTypeTag = false →
        (discoveryExecute cache now oracle input).1.isShapedError = true)) ∧
    (∀ cache now oracle input,
      ((downloadExecute cache now oracle input).1.isSuccess ||
        (downloadExecute cache now oracle input).1.hasErrorField) = true ∧
      ((downloadExecute cache now oracle input).1.hasErrorField = true →
        (downloadExecute cache now oracle input).1.hasTypeTag = false →
        (downloadExecute cache now oracle input).1.isShapedError = true)) :=
  ⟨fun cache now oracle input => transcriptResult_shape _,
   fun cache now oracle input => searchResult_shape _,
   fun cache now oracle input => downloadResult_shape _⟩

/-- Witness for C5 (amended): the untagged shaped payloads of all three
tools satisfy the amended taxonomy at concrete inputs. -/
theorem execute_boundary_taxonomy_witness :
    ((transcriptExecute [] 0 (.ok []) "abcdefghijk").1.isShapedError = true) ∧
    ((discoveryExecute [] 0 (.ok none) "cats").1.isShapedError = true) ∧
    ((downloadExecute [] 0 (.ok none) "abcdefghijk").1.isShapedError = true) :=
  ⟨(execute_boundary_taxonomy.1 [] 0 (.ok []) "abcdefghijk").2 (by rfl) (by rfl),
   (execute_boundary_taxonomy.2.1 [] 0 (.ok none) "cats").2 (by rfl) (by rfl),
   (execute_boundary_taxonomy.2.2 [] 0 (.ok none) "abcdefghijk").2 (by rfl) (by rfl)⟩

/-! ## Download route format catalogue
(`app/(chat)/api/youtube/download/route.ts`, `getFormatInfo`)

The route partitions `result.formats`: `resolution === "audio only"`
lands in `audioOnly`, otherwise `acodec === "none"` in `videoOnly`,
otherwise `combined`; `bestQuality.bestAudio` is the head of the
audio-only sublist sorted descending by `abr || 0` (a stable sort with a
consistent numeric comparator, so the head holds the maximal key). -/

/-- The fields of the yt-dlp dump that `getFormatInfo` reads. -/
structure YtdlpResult where
  title : Option String
  duration : Option Nat
  format_id : Option String
  formats : List RawFormat
deriving DecidableEq

/-- The `formatInfo` projection of the loop body (lines 186-197; the
route's object has no `filesizeFormatted` key). -/
def toFormatInfo (f : RawFormat) : FormatInfo :=
  { formatId := f.format_id, ext := f.ext, resolution := f.resolution,
    fps := f.fps, vcodec := f.vcodec, acodec := f.acodec, abr := f.abr,
    vbr := f.vbr, filesize := f.filesize, filesizeFormatted := none,
    formatNote := f.format_note }

/-- The classification loop (lines 185-206); `push` order is preserved. -/
def categorizeFormats : List RawFormat → FormatBuckets
  | [] => { combined := [], videoOnly := [], audioOnly := [] }
  | f :: rest =>
    let b := categorizeFormats rest
    if f.resolution = some "audio only" then
      { b with audioOnly := toFormatInfo f :: b.audioOnly }
    else if f.acodec = some "none" then
      { b with videoOnly := toFormatInfo f :: b.videoOnly }
    else
      { b with combined := toFormatInfo f :: b.combined }

/-- The sort key `abr || 0`. -/
def abrKey (f : RawFormat) : Rat := f.abr.getD 0

/-- Stable insertion for the descending `(b.abr||0) - (a.abr||0)` sort:
an element is placed before every strictly smaller key and after equal
keys seen earlier. -/
def insertByAbrDesc (x : RawFormat) : List RawFormat → List RawFormat
  | [] => [x]
  | y :: ys => if abrKey x ≥ abrKey y then x :: y :: ys else y :: insertByAbrDesc x ys

/-- Stable descending sort by `abr || 0`. -/
def sortByAbrDesc : List RawFormat → List RawFormat
  | [] => []
  | x :: xs => insertByAbrDesc x (sortByAbrDesc xs)

/-- The success payload of `getFormatInfo`. -/
structure FormatInfoPayload where
  videoId : String
  title : Option String
  duration : Option Nat
  formats : FormatBuckets
  bestQuality : BestQuality
deriving DecidableEq

/-- The body of `getFormatInfo` on the yt-dlp dump (`find` with `===`
treats two absent ids as equal, as JS does for `undefined === undefined`). -/
def getFormatInfoPayload (videoId : String) (result : YtdlpResult) : FormatInfoPayload :=
  { videoId := videoId
    title := result.title
    duration := result.duration
    formats := categorizeFormats result.formats
    bestQuality :=
      { best := result.formats.find? (fun f => decide (f.format_id = result.format_id))
        bestVideo := result.formats.find? (fun f =>
          decide (¬ f.vcodec = some "none") && decide (¬ f.acodec = some "none") &&
          decide (f.format_id = result.format_id))
        bestAudio :=
          (sortByAbrDesc (result.formats.filter
            (fun f => decide (f.resolution = some "audio only")))).head? } }

/-- The whole route helper with its catch blocks (`Error` message or the
fixed fallback, always echoing `videoId`). -/
inductive FormatInfoResult where
  | ok (payload : FormatInfoPayload)
  | failed (message : String) (videoId : String)
deriving DecidableEq

/-- `getFormatInfo`: the yt-dlp invocation is the oracle. -/
def getFormatInfo (videoId : String) (oracle : Except Thrown YtdlpResult) : FormatInfoResult :=
  match oracle with
  | .ok result => .ok (getFormatInfoPayload videoId result)
  | .error (.errorObj m) => .failed m videoId
  | .error .other => .failed "Failed to retrieve format information" videoId

/-- The `audioOnly` bucket is exactly the audio-only entries in order. -/
theorem categorize_audioOnly (fs : List RawFormat) :
    (categorizeFormats fs).audioOnly =
      (fs.filter (fun f => decide (f.resolution = some "audio only"))).map toFormatInfo := by
  induction fs with
  | nil => rfl
  | cons f rest ih =>
    simp only [categorizeFormats, List.filter]
    by_cases h1 : f.resolution = some "audio only"
    · simp [h1, ih]
    · by_cases h2 : f.acodec = some "none" <;> simp [h1, h2, ih]

/-- The `videoOnly` bucket is exactly the video-only entries in order. -/
theorem categorize_videoOnly (fs : List RawFormat) :
    (categorizeFormats fs).videoOnly =
      (fs.filter (fun f =>
        decide (¬ f.resolution = some "audio only") && decide (f.acodec = some "none"))).map toFormatInfo := by
  induction fs with
  | nil => rfl
  | cons f rest ih =>
    simp only [categorizeFormats, List.filter]
    by_cases h1 : f.resolution = some "audio only"
    · simp [h1, ih]
    · by_cases h2 : f.acodec = some "none" <;> simp [h1, h2, ih]

/-- The `combined` bucket is exactly the rest, in order. -/
theorem categorize_combined (fs : List RawFormat) :
    (categorizeFormats fs).combined =
      (fs.filter (fun f =>
        decide (¬ f.resolution = some "audio only") && decide (¬ f.acodec = some "none"))).map toFormatInfo := by
  induction fs with
  | nil => rfl
  | cons f rest ih =>
    simp only [categorizeFormats, List.filter]
    by_cases h1 : f.resolution = some "audio only"
    · simp [h1, ih]
    · by_cases h2 : f.acodec = some "none" <;> simp [h1, h2, ih]

/-- Insertion preserves membership. -/
theorem insertByAbrDesc_mem {x y : RawFormat} {l : List RawFormat} :
    y ∈ insertByAbrDesc x l ↔ y = x ∨ y ∈ l := by
  induction l with
  | nil => simp [insertByAbrDesc]
  | cons z zs ih =>
    simp only [insertByAbrDesc]
    split
    · simp [List.mem_cons]
    · simp only [List.mem_cons, ih]
      tauto

/-- Sorting preserves membership. -/
theorem sortByAbrDesc_mem {y : RawFormat} {l : List RawFormat} :
    y ∈ sortByAbrDesc l ↔ y ∈ l := by
  induction l with
  | nil => simp [sortByAbrDesc]
  | cons x xs ih =>
    simp only [sortByAbrDesc, insertByAbrDesc_mem, List.mem_cons, ih]

/-- The head of the descending sort is a member of maximal key. -/
theorem sortByAbrDesc_head_max (l : List RawFormat) (h : l ≠ []) :
    ∃ g, (sortByAbrDesc l).head? = some g ∧ g ∈ l ∧ ∀ x ∈ l, abrKey x ≤ abrKey g := by
  induction l with
  | nil => exact absurd rfl h
  | cons x xs ih =>
    cases hxs : xs with
    | nil =>
      refine ⟨x, by simp [sortByAbrDesc, insertByAbrDesc], by simp, ?_⟩
      intro y hy
      simp at hy
      simp [hy]
    | cons z zs =>
      obtain ⟨g, hg1, hg2, hg3⟩ := ih (by simp [hxs])
      rw [← hxs] at *
      simp only [sortByAbrDesc]
      cases hsort : sortByAbrDesc xs with
      | nil => rw [hsort] at hg1; simp at hg1
      | cons g2 t =>
        rw [hsort] at hg1
        simp only [List.head?] at hg1
        cases hg1
        simp only [insertByAbrDesc]
        split
        · next hge =>
          refine ⟨x, rfl, by simp, ?_⟩
          intro y hy
          rcases List.mem_cons.mp hy with rfl | hy2
          · exact le_refl _
          · exact le_trans (hg3 y hy2) hge
        · next hlt =>
          refine ⟨g, rfl, by simp [hg2], ?_⟩
          intro y hy
          rcases List.mem_cons.mp hy with rfl | hy2
          · exact le_of_not_ge hlt
          · exact hg3 y hy2

/-- C8: every audio-only entry lands in `audioOnly`, every remaining
`acodec: "none"` entry in `videoOnly`, everything else in `combined`, and
`bestQuality.bestAudio` is an audio-only entry of maximal `abr || 0`
among the audio-only entries whenever any exist. -/
theorem getFormatInfo_partition (videoId : String) (r : YtdlpResult) :
    (∀ f ∈ r.formats, f.resolution = some "audio only" →
      toFormatInfo f ∈ (getFormatInfoPayload videoId r).formats.audioOnly) ∧
    (∀ f ∈ r.formats, ¬ f.resolution = some "audio only" → f.acodec = some "none" →
      toFormatInfo f ∈ (getFormatInfoPayload videoId r).formats.videoOnly) ∧
    (∀ f ∈ r.formats, ¬ f.resolution = some "audio only" → ¬ f.acodec = some "none" →
      toFormatInfo f ∈ (getFormatInfoPayload videoId r).formats.combined) ∧
    (r.formats.filter (fun f => decide (f.resolution = some "audio only")) ≠ [] →
      ∃ g, (getFormatInfoPayload videoId r).bestQuality.bestAudio = some g ∧
        g ∈ r.formats ∧ g.resolution = some "audio only" ∧
        ∀ f ∈ r.formats, f.resolution = some "audio only" → abrKey f ≤ abrKey g) := by
  refine ⟨?_, ?_, ?_, ?_⟩
  · intro f hf hres
    simp only [getFormatInfoPayload, categorize_audioOnly]
    exact List.mem_map_of_mem _ (List.mem_filter.mpr ⟨hf, by simp [hres]⟩)
  · intro f hf hres hac
    simp only [getFormatInfoPayload, categorize_videoOnly]
    exact List.mem_map_of_mem _ (List.mem_filter.mpr ⟨hf, by simp [hres, hac]⟩)
  · intro f hf hres hac
    simp only [getFormatInfoPayload, categorize_combined]
    exact List.mem_map_of_mem _ (List.mem_filter.mpr ⟨hf, by simp [hres, hac]⟩)
  · intro hne
    obtain ⟨g, hg1, hg2, hg3⟩ := sortByAbrDesc_head_max _ hne
    have hgmem := List.mem_filter.mp hg2
    refine ⟨g, ?_, hgmem.1, by simpa using hgmem.2, ?_⟩
    · simpa [getFormatInfoPayload] using hg1
    · intro f hf hres
      exact hg3 f (List.mem_filter.mpr ⟨hf, by simp [hres]⟩)

/-- The spec's three-entry example: an audio-only entry. -/
def fmtAudioEx : RawFormat :=
  { format_id := some "140", ext := some "m4a", resolution := some "audio only",
    fps := none, vcodec := some "none", acodec := some "mp4a.40.2",
    abr := some 129, vbr := none, filesize := some 1000,
    filesizeFormatted := none, format_note := none }

/-- The spec's three-entry example: a video-only entry (`acodec: "none"`). -/
def fmtVideoEx : RawFormat :=
  { format_id := some "137", ext := some "mp4", resolution := some "1920x1080",
    fps := some 30, vcodec := some "avc1", acodec := some "none",
    abr := none, vbr := some 4000, filesize := some 5000,
    filesizeFormatted := none, format_note := none }

/-- The spec's three-entry example: a combined entry (both codecs). -/
def fmtBothEx : RawFormat :=
  { format_id := some "22", ext := some "mp4", resolution := some "1280x720",
    fps := some 30, vcodec := some "avc1", acodec := some "mp4a.40.2",
    abr := some 192, vbr := some 2000, filesize := some 3000,
    filesizeFormatted := none, format_note := none }

/-- A yt-dlp dump carrying the three example formats. -/
def ytdlpEx : YtdlpResult :=
  { title := some "t", duration := some 60, format_id := some "22",
    formats := [fmtAudioEx, fmtVideoEx, fmtBothEx] }

/-- Witness for C8 at the spec's three-entry example list: the three
entries land in `audioOnly`, `videoOnly` and `combined` respectively, and
a maximal-`abr` audio-only entry is selected. -/
theorem getFormatInfo_partition_witness :
    toFormatInfo fmtAudioEx ∈ (getFormatInfoPayload "abcdefghijk" ytdlpEx).formats.audioOnly ∧
    toFormatInfo fmtVideoEx ∈ (getFormatInfoPayload "abcdefghijk" ytdlpEx).formats.videoOnly ∧
    toFormatInfo fmtBothEx ∈ (getFormatInfoPayload "abcdefghijk" ytdlpEx).formats.combined ∧
    ∃ g, (getFormatInfoPayload "abcdefghijk" ytdlpEx).bestQuality.bestAudio = some g ∧
      g ∈ ytdlpEx.formats ∧ g.resolution = some "audio only" ∧
      ∀ f ∈ ytdlpEx.formats, f.resolution = some "audio only" → abrKey f ≤ abrKey g :=
  ⟨(getFormatInfo_partition "abcdefghijk" ytdlpEx).1 fmtAudioEx (by simp [ytdlpEx]) (by rfl),
   (getFormatInfo_partition "abcdefghijk" ytdlpEx).2.1 fmtVideoEx (by simp [ytdlpEx])
     (by simp [fmtVideoEx]) (by rfl),
   (getFormatInfo_partition "abcdefghijk" ytdlpEx).2.2.1 fmtBothEx (by simp [ytdlpEx])
     (by simp [fmtBothEx]) (by simp [fmtBothEx]),
   (getFormatInfo_partition "abcdefghijk" ytdlpEx).2.2.2 (by decide)⟩
/-! ## Search route recent filter
(`app/(chat)/api/youtube/search/route.ts`, `searchVideos` lines 122-130)

`videos.filter(video => { if (!video.uploadedAt) return true; const
uploadDate = new Date(video.uploadedAt); return uploadDate > twoYearsAgo; })`
— `new Date` is the external JS date parser, modelled as a function to
`Option Int` (epoch milliseconds; `none` is an Invalid Date, whose `NaN`
makes every comparison false). -/

/-- The fields of a `ytsr` item the recent filter reads. -/
structure YtVideo where
  uploadedAt : Option String
deriving DecidableEq

/-- The filter predicate: a falsy `uploadedAt` (absent or empty) passes;
otherwise the parsed date must be strictly after the two-years-ago
cutoff; an unparseable date compares as `NaN` and fails. -/
def recentFilterPred (jsDateParse : String → Option Int) (twoYearsAgo : Int)
    (v : YtVideo) : Bool :=
  match v.uploadedAt with
  | none => true
  | some su =>
    if su = "" then true
    else
      match jsDateParse su with
      | none => false
      | some t => twoYearsAgo < t

/-- The surrounding `if (options.recent)` application. -/
def applyRecentFilter (jsDateParse : String → Option Int) (twoYearsAgo : Int)
    (recent : Bool) (videos : List YtVideo) : List YtVideo :=
  if recent then videos.filter (recentFilterPred jsDateParse twoYearsAgo) else videos

/-- Counterexample to C10 as stated: an item whose upload date does not
parse (as for the relative strings `ytsr` actually returns, where
`new Date("2 years ago")` is an Invalid Date) is removed by the filter
even though it has no parsed upload date at all, let alone one two years
old or older. -/
theorem recentFilter_drops_unparseable :
    recentFilterPred (fun _ => none) 0 { uploadedAt := some "2 years ago" } = false ∧
    (fun _ => (none : Option Int)) "2 years ago" = none :=
  ⟨rfl, rfl⟩

/-- C10 (amended): an item with a falsy upload date (absent or empty) is
always retained; an item is removed exactly when it carries a nonempty
upload date whose parse either fails (Invalid Date) or yields a time not
after the two-years-ago cutoff. -/
theorem recentFilter_spec (jsDateParse : String → Option Int) (twoYearsAgo : Int)
    (v : YtVideo) :
    ((v.uploadedAt = none ∨ v.uploadedAt = some "") →
      recentFilterPred jsDateParse twoYearsAgo v = true) ∧
    (recentFilterPred jsDateParse twoYearsAgo v = false ↔
      ∃ su, v.uploadedAt = some su ∧ su ≠ "" ∧
        (jsDateParse su = none ∨ ∃ t, jsDateParse su = some t ∧ t ≤ twoYearsAgo)) := by
  constructor
  · intro h
    rcases h with h | h <;> simp [recentFilterPred, h]
  · cases hv : v.uploadedAt with
    | none => simp [recentFilterPred, hv]
    | some su =>
      by_cases hsu : su = ""
      · simp [recentFilterPred, hv, hsu]
      · cases hp : jsDateParse su with
        | none => simp [recentFilterPred, hv, hsu, hp]
        | some t =>
          simp only [recentFilterPred, hv, if_neg hsu, hp]
          constructor
          · intro hf
            exact ⟨su, rfl, hsu, Or.inr ⟨t, hp, by
              by_contra hc
              rw [decide_eq_false_iff_not] at hf
              omega⟩⟩
          · rintro ⟨su2, hsu2, -, hca | ⟨t2, ht2, hle⟩⟩
            · rw [hv] at *
              cases hsu2
              rw [hp] at hca
              exact absurd hca (by simp)
            · cases hsu2
              rw [hp] at ht2
              cases ht2
              simp only [decide_eq_false_iff_not]
              omega

/-- Witness for C10 (amended): an item with no upload date passes the
filter. -/
theorem recentFilter_spec_witness :
    recentFilterPred (fun _ => some 100) 0 { uploadedAt := none } = true :=
  (recentFilter_spec (fun _ => some 100) 0 { uploadedAt := none }).1 (Or.inl rfl)

end YT
